import Mathlib

/-!
Verification of the AI-Companions-Watch backend against its specification.

The TypeScript sources are shallowly embedded: JavaScript strings are
modelled as `List Char` (`JSStr`), integers and millisecond timestamps as
`Int`, and floating-point scores as `ℝ`.  Each definition mirrors one
function of the repository; the theorems at the end of the file settle the
specification claims C1..C10.
-/

/-- JavaScript strings are modelled as lists of characters. -/
abbrev JSStr := List Char

/-- JavaScript `String.prototype.trim`: strip leading and trailing whitespace. -/
def jsTrim (l : JSStr) : JSStr :=
  ((l.dropWhile Char.isWhitespace).reverse.dropWhile Char.isWhitespace).reverse

/-- JavaScript `String.prototype.toLowerCase`, ASCII fragment (the sources only
feed ASCII slugs, URLs and ids through it). -/
def jsLower (l : JSStr) : JSStr := l.map Char.toLower

namespace TruncateLib

/-- The bounded fields of `src/lib/truncate.ts` (`LIMITS`). -/
inductive TruncateField
  | rawText
  | llmRawResponse
  | normalizedSummary
  | contextSummary
  | suggestedHeadline
  | clusterHeadline
  | ingestReason
deriving DecidableEq

/-- Field size limits from `src/lib/truncate.ts` (`LIMITS`). -/
def LIMITS : TruncateField → Nat
  | .rawText => 20000
  | .llmRawResponse => 20000
  | .normalizedSummary => 2000
  | .contextSummary => 1000
  | .suggestedHeadline => 200
  | .clusterHeadline => 200
  | .ingestReason => 500

/-- The `"..."` marker appended by the truncation helpers. -/
def ellipsisChars : JSStr := ['.', '.', '.']

/-- `truncate` from `src/lib/truncate.ts`: null-preserving bounded truncation. -/
def truncate (text : Option JSStr) (field : TruncateField) : Option JSStr :=
  match text with
  | none => none
  | some t =>
    if t.isEmpty then some [] else
    let limit := LIMITS field
    if t.length ≤ limit then some t
    else some (t.take (limit - 3) ++ ellipsisChars)

/-- `truncateRequired` from `src/lib/truncate.ts`. -/
def truncateRequired (t : JSStr) (field : TruncateField) : JSStr :=
  let limit := LIMITS field
  if t.length ≤ limit then t else t.take (limit - 3) ++ ellipsisChars

end TruncateLib

namespace HashLib

/-- JavaScript `lastIndexOf(' ')`: the last index of a space, or `-1`. -/
def lastIndexOfSpace (l : JSStr) : Int :=
  match l.reverse.findIdx? (fun c => c = ' ') with
  | none => -1
  | some j => (l.length : Int) - 1 - (j : Int)

/-- `truncateText` from the hash/text utility module: word-boundary truncation
used for `rawText` and the LLM raw response.  The JavaScript comparison
`lastSpace > maxLength * 0.8` is modelled exactly over the rationals as
`5 * lastSpace > 4 * maxLength`. -/
def truncateText (text : JSStr) (maxLength : Nat) : JSStr :=
  if text.length ≤ maxLength then text
  else
    let truncated := text.take maxLength
    let lastSpace := lastIndexOfSpace truncated
    if 5 * lastSpace > 4 * (maxLength : Int) then
      truncated.take lastSpace.toNat ++ TruncateLib.ellipsisChars
    else
      truncated ++ TruncateLib.ellipsisChars

/-- Characters allowed in a URL scheme after the leading letter. -/
def isSchemeChar (c : Char) : Bool :=
  c.isAlpha || c.isDigit || c = '+' || c = '-' || c = '.'

/-- Split a string at the first occurrence of `"://"`. -/
def splitSchemeSep : JSStr → Option (JSStr × JSStr)
  | [] => none
  | ':' :: '/' :: '/' :: rest => some ([], rest)
  | c :: rest => (splitSchemeSep rest).map (fun p => (c :: p.1, p.2))

/-- Pathname of the part following the host: as in the WHATWG URL model, a URL
with no explicit path has pathname `"/"`. -/
def urlPathname (afterHost : JSStr) : JSStr :=
  match afterHost with
  | '/' :: _ => afterHost.takeWhile (fun c => c ≠ '?' && c ≠ '#')
  | _ => ['/']

/-- Model of `new URL(url)` for absolute `scheme://host/path?query#frag` URLs,
returning `(scheme, host, pathname)`; `none` models the constructor throwing. -/
def parseUrlParts (url : JSStr) : Option (JSStr × JSStr × JSStr) :=
  match splitSchemeSep url with
  | none => none
  | some (scheme, rest) =>
    if scheme.isEmpty then none
    else if ¬ (scheme.head?.elim false Char.isAlpha) then none
    else if ¬ (scheme.all isSchemeChar) then none
    else
      let host := rest.takeWhile (fun c => c ≠ '/' && c ≠ '?' && c ≠ '#')
      if host.isEmpty then none
      else some (scheme, host, urlPathname (rest.drop host.length))

/-- JavaScript `pathname.replace(/\/$/, '')`: drop one trailing slash. -/
def stripTrailingSlash (p : JSStr) : JSStr :=
  if p.getLast? = some '/' then p.dropLast else p

/-- `normalizeUrl` from the hash utility module. -/
def normalizeUrl (url : JSStr) : JSStr :=
  match parseUrlParts url with
  | some (scheme, host, pathname) =>
    jsLower (scheme ++ (':' :: '/' :: '/' :: []) ++ host ++ stripTrailingSlash pathname)
  | none => jsTrim (jsLower url)

/-- Days-to-civil-date conversion (proleptic Gregorian), as performed by
JavaScript `Date.prototype.toISOString`. -/
def civilFromDays (z0 : Int) : Int × Int × Int :=
  let z := z0 + 719468
  let era := (if 0 ≤ z then z else z - 146096) / 146097
  let doe := z - era * 146097
  let yoe := (doe - doe / 1460 + doe / 36524 - doe / 146096) / 365
  let y := yoe + era * 400
  let doy := doe - (365 * yoe + yoe / 4 - yoe / 100)
  let mp := (5 * doy + 2) / 153
  let d := doy - (153 * mp + 2) / 5 + 1
  let m := mp + (if mp < 10 then 3 else (-9))
  (y + (if m ≤ 2 then 1 else 0), m, d)

/-- Decimal digits, fuel-based so that the kernel can evaluate it. -/
def natDecimalAux : Nat → Nat → JSStr
  | 0, _ => []
  | fuel + 1, n =>
    if n < 10 then [Char.ofNat (48 + n)]
    else natDecimalAux fuel (n / 10) ++ [Char.ofNat (48 + n % 10)]

/-- Decimal digits of a natural number (most significant first). -/
def natDecimal (n : Nat) : JSStr := natDecimalAux (n + 1) n

/-- Left-pad the decimal form of a nonnegative integer with zeros. -/
def padNum (width : Nat) (n : Int) : JSStr :=
  let ds := natDecimal n.toNat
  List.replicate (width - ds.length) '0' ++ ds

/-- Date bucket `YYYY-MM-DD` of an epoch-millisecond timestamp, as produced by
`toISOString().slice(0, 10)` (years 0..9999). -/
def dateBucketOfMs (ms : Int) : JSStr :=
  let days := Int.fdiv ms 86400000
  let c := civilFromDays days
  padNum 4 c.1 ++ ['-'] ++ padNum 2 c.2.1 ++ ['-'] ++ padNum 2 c.2.2

/-- The preimage string hashed by `generateContentHash` (the SHA-256 step
itself is treated as injective and elided; the claims concern the hashed
string). -/
def generateContentHashInput (url : JSStr) (title : Option JSStr)
    (publishedAt : Option Int) : JSStr :=
  let normalizedUrl := normalizeUrl url
  let normalizedTitle := jsTrim (jsLower (title.getD []))
  let dateBucket := match publishedAt with
    | some ms => dateBucketOfMs ms
    | none => ('u' :: 'n' :: 'k' :: 'n' :: 'o' :: 'w' :: 'n' :: [])
  normalizedUrl ++ ['|'] ++ normalizedTitle ++ ['|'] ++ dateBucket

end HashLib

namespace IngestLib

/-- The fields of a fetched item that determine its content hash
(`storeRawSignal` in the ingest module). -/
structure RawFetchedItemH where
  sourceUrl : JSStr
  externalId : Option JSStr
  title : Option JSStr
  publishedAt : Option Int

/-- JavaScript truthiness of `item.externalId`: present and non-empty. -/
def hasExternalId (item : RawFetchedItemH) : Bool :=
  match item.externalId with
  | some e => ¬ e.isEmpty
  | none => false

/-- The string hashed for dedup by `storeRawSignal`: with a truthy external id
the id is passed in the title position of `generateContentHash` and the
published-at argument is `null`. -/
def storeRawSignalHashInput (item : RawFetchedItemH) : JSStr :=
  if hasExternalId item then
    HashLib.generateContentHashInput item.sourceUrl item.externalId none
  else
    HashLib.generateContentHashInput item.sourceUrl item.title item.publishedAt

/-- Modelled from the spec (§4.1), for comparison with the code: with an
external id the hash preimage is claimed to be
`normalize(url) | externalId | ""` — the id verbatim and an empty third
component. -/
def specHashInputWithExternalId (url extId : JSStr) : JSStr :=
  HashLib.normalizeUrl url ++ ['|'] ++ extId ++ ['|']

end IngestLib

namespace EnvLib

/-- Default of `DIRECT_MODE_TIMEOUT_MS` in the environment schema
(`z.coerce.number().int().min(1000).default(55000)`). -/
def DIRECT_MODE_TIMEOUT_MS_default : Int := 55000

/-- Resolution of `DIRECT_MODE_TIMEOUT_MS`: unset yields the schema default,
a set value below the schema minimum fails validation. -/
def resolveDirectModeTimeoutMs : Option Int → Option Int
  | none => some DIRECT_MODE_TIMEOUT_MS_default
  | some v => if 1000 ≤ v then some v else none

/-- The per-task wall-clock check of `DirectPipelineRunner.normalizeSignals`:
a task is skipped when elapsed time exceeds the budget minus a 10 s margin. -/
def normalizeTimeBudgetExceeded (nowMs startMs timeoutMs : Int) : Bool :=
  nowMs - startMs > timeoutMs - 10000

/-- The per-signal wall-clock check of `DirectPipelineRunner.clusterSignals`
(5 s margin). -/
def clusterTimeBudgetExceeded (nowMs startMs timeoutMs : Int) : Bool :=
  nowMs - startMs > timeoutMs - 5000

end EnvLib

namespace ClusterLib

/-- The two timestamps of a story cluster that invariant §3.4 relates. -/
structure ClusterTimes where
  firstSeenAt : Int
  lastSignalAt : Int
deriving DecidableEq

/-- Timestamp initialisation of `createNewCluster`: `firstSeenAt` is the
signal's `publishedAt ?? createdAt`, while `lastSignalAt` is the signal's
`createdAt`. -/
def createNewClusterTimes (publishedAt : Option Int) (createdAt : Int) : ClusterTimes :=
  { firstSeenAt := publishedAt.getD createdAt
    lastSignalAt := createdAt }

/-- Timestamp update of `attachSignalToCluster`: `lastSignalAt` is set to the
current wall-clock time. -/
def attachSignalToClusterTimes (now : Int) (c : ClusterTimes) : ClusterTimes :=
  { firstSeenAt := c.firstSeenAt
    lastSignalAt := now }

/-- A cluster history: creation from one signal followed by a sequence of
attachments at the given wall-clock times. -/
def runClusterTimes (publishedAt : Option Int) (createdAt : Int)
    (attachTimes : List Int) : ClusterTimes :=
  attachTimes.foldl (fun c t => attachSignalToClusterTimes t c)
    (createNewClusterTimes publishedAt createdAt)

end ClusterLib

namespace RankLib

/-- The category enum of the data model. -/
inductive Category
  | PRODUCT_UPDATE
  | MONETIZATION_CHANGE
  | SAFETY_YOUTH_RISK
  | NSFW_CONTENT_POLICY
  | CULTURAL_TREND
  | REGULATORY_LEGAL
  | BUSINESS_FUNDING
deriving DecidableEq

/-- `CATEGORY_WEIGHTS` from the ranking module: safety and regulatory weigh
1.5, all others default to 1.0. -/
noncomputable def CATEGORY_WEIGHTS : Category → ℝ
  | .SAFETY_YOUTH_RISK => 1.5
  | .REGULATORY_LEGAL => 1.5
  | _ => 1.0

/-- The per-signal data consumed by the ranker. -/
structure RankSignal where
  sourceDomain : JSStr
  createdAt : Int

/-- The per-cluster data consumed by the ranker. -/
structure RankCluster where
  signals : List RankSignal
  categories : List Category
  lastSignalAt : Int
  manualBoost : Int

/-- The environment knobs read by `computeImportanceScore`. -/
structure RankEnv where
  RANKING_MAX_DOMAINS : Nat
  RANKING_RECENCY_DECAY_HOURS : Int

/-- `countSignalsInWindow` from the ranking module (window in minutes). -/
def countSignalsInWindow (signals : List RankSignal) (windowMinutes : Int)
    (nowMs : Int) : Nat :=
  (signals.filter (fun s => nowMs - s.createdAt ≤ windowMinutes * 60 * 1000)).length

/-- Number of distinct source domains among a cluster's signals. -/
def uniqueDomainsCount (signals : List RankSignal) : Nat :=
  ((signals.map (fun s => s.sourceDomain)).dedup).length

/-- `getAverageCredibility`: the average of the signals' source-domain weights
(the `cred` function models the `SourceCredibility` table; unknown domains
default to 0.5, and an empty cluster averages to 0.5). -/
noncomputable def getAverageCredibility (cred : JSStr → Option ℝ)
    (signals : List RankSignal) : ℝ :=
  if signals.isEmpty then 0.5
  else (signals.map (fun s => (cred s.sourceDomain).getD 0.5)).sum /
    (signals.length : ℝ)

/-- The per-component score breakdown persisted for audit. -/
structure ScoreBreakdown where
  sourceDiversity : ℝ
  velocity : ℝ
  credibility : ℝ
  category : ℝ
  recency : ℝ
  manual : ℝ

/-- The result of `computeImportanceScore`. -/
structure RankingResult where
  score : ℝ
  scoreMillis : Int
  breakdown : ScoreBreakdown

/-- `computeImportanceScore` from the ranking module, with `Date.now()` passed
explicitly as `nowMs`. -/
noncomputable def computeImportanceScore (env : RankEnv)
    (cred : JSStr → Option ℝ) (cluster : RankCluster) (nowMs : Int) :
    RankingResult :=
  let sourceDiversity : ℝ :=
    (min (uniqueDomainsCount cluster.signals) env.RANKING_MAX_DOMAINS : ℝ) * 2.0
  let signalsLastHour := countSignalsInWindow cluster.signals 60 nowMs
  let velocity : ℝ := Real.log (1 + (signalsLastHour : ℝ)) * 3.0
  let credibility : ℝ := getAverageCredibility cred cluster.signals * 1.5
  let maxCategoryWeight : ℝ :=
    (cluster.categories.map CATEGORY_WEIGHTS).foldl max 1.0
  let category : ℝ := maxCategoryWeight * 2.0
  let hoursOld : ℝ := ((nowMs - cluster.lastSignalAt : Int) : ℝ) / (1000 * 60 * 60)
  let recency : ℝ :=
    Real.exp (-(hoursOld / (env.RANKING_RECENCY_DECAY_HOURS : ℝ))) * 1.0
  let manual : ℝ := (cluster.manualBoost : ℝ) * 5.0
  let breakdown : ScoreBreakdown :=
    { sourceDiversity := sourceDiversity, velocity := velocity,
      credibility := credibility, category := category,
      recency := recency, manual := manual }
  let score : ℝ :=
    breakdown.sourceDiversity + breakdown.velocity + breakdown.credibility +
      breakdown.category + breakdown.recency + breakdown.manual
  { score := score, scoreMillis := round (score * 1000), breakdown := breakdown }

/-- Modelled from the spec (§4.7) for comparison: the claimed component
formulas of the importance score. -/
noncomputable def specScoreOfComponents (env : RankEnv)
    (cred : JSStr → Option ℝ) (cluster : RankCluster) (nowMs : Int) : ℝ :=
  (min (uniqueDomainsCount cluster.signals) env.RANKING_MAX_DOMAINS : ℝ) * 2.0 +
  Real.log (1 + (countSignalsInWindow cluster.signals 60 nowMs : ℝ)) * 3.0 +
  getAverageCredibility cred cluster.signals * 1.5 +
  ((cluster.categories.map CATEGORY_WEIGHTS).foldl max 1.0) * 2.0 +
  Real.exp (-(((nowMs - cluster.lastSignalAt : Int) : ℝ) / (1000 * 60 * 60) /
    (env.RANKING_RECENCY_DECAY_HOURS : ℝ))) * 1.0 +
  (cluster.manualBoost : ℝ) * 5.0

/-- The §8 ranking scenario: three domains of weight 0.9. -/
noncomputable def scenarioCred : JSStr → Option ℝ := fun d =>
  if d = ['a'] then some 0.9
  else if d = ['b'] then some 0.9
  else if d = ['c'] then some 0.9
  else none

/-- The §8 ranking scenario cluster: 3 domains, one signal in the last hour,
categories `{PRODUCT_UPDATE}`, `lastSignalAt = now`, `manualBoost = 0`,
evaluated at `nowMs = 10^10`. -/
def scenarioCluster : RankCluster :=
  { signals :=
      [ { sourceDomain := ['a'], createdAt := 10000000000 - 60000 },
        { sourceDomain := ['b'], createdAt := 10000000000 - 7200000 },
        { sourceDomain := ['c'], createdAt := 10000000000 - 7200000 } ]
    categories := [Category.PRODUCT_UPDATE]
    lastSignalAt := 10000000000
    manualBoost := 0 }

end RankLib

namespace SimilarityLib

/-- The stopword list of the similarity module. -/
def STOPWORDS : List JSStr :=
  (["the", "a", "an", "and", "or", "but", "in", "on", "at", "to", "for",
    "of", "with", "by", "from", "as", "is", "was", "are", "were", "been",
    "be", "have", "has", "had", "do", "does", "did", "will", "would",
    "could", "should", "may", "might", "must", "shall", "can", "this",
    "that", "these", "those", "it", "its", "they", "them", "their",
    "we", "us", "our", "you", "your", "he", "she", "him", "her", "his",
    "i", "me", "my", "not", "no", "yes", "so", "if", "then", "than",
    "when", "where", "what", "which", "who", "how", "why", "all", "each",
    "every", "both", "few", "more", "most", "other", "some", "such",
    "only", "own", "same", "also", "just", "now", "new", "says", "said",
    "like", "get", "got", "one", "two", "first", "last", "being", "make",
    "made", "use", "using", "used", "via", "still", "even", "well"] :
    List String).map String.toList

/-- `tokenize` from the similarity module: lowercase, replace characters
outside `[a-z0-9\s]` by spaces, split on whitespace, drop tokens of length
≤ 2 and stopwords. -/
def tokenize (text : JSStr) : List JSStr :=
  (((jsLower text).map (fun c =>
      if c.isLower || c.isDigit || c.isWhitespace then c else ' ')).splitOnP
    (fun c => c.isWhitespace)).filter
    (fun w => decide (2 < w.length) && ¬ STOPWORDS.contains w)

/-- Lookup in an association list modelling a JavaScript `Map`. -/
def alistGet {α : Type} (m : List (JSStr × α)) (k : JSStr) : Option α :=
  (m.find? (fun p => p.1 = k)).map Prod.snd

/-- `Map.set`: update in place if present, else append (insertion order). -/
def alistSet {α : Type} (m : List (JSStr × α)) (k : JSStr) (v : α) :
    List (JSStr × α) :=
  if m.any (fun p => p.1 = k) then
    m.map (fun p => if p.1 = k then (k, v) else p)
  else m ++ [(k, v)]

/-- Occurrence counts of tokens, in insertion order (the raw `tf` map before
normalization). -/
def countOcc (tokens : List JSStr) : List (JSStr × Nat) :=
  tokens.foldl (fun m t => alistSet m t ((alistGet m t).getD 0 + 1)) []

/-- `Set` iteration order in JavaScript: first occurrences. -/
def firstDedup (l : List JSStr) : List JSStr :=
  l.foldl (fun acc t => if acc.contains t then acc else acc ++ [t]) []

/-- `computeTF`: counts normalized by the maximum count (floored at 1). -/
noncomputable def computeTF (tokens : List JSStr) : List (JSStr × ℝ) :=
  let tf := countOcc tokens
  let maxFreq : Nat := tf.foldl (fun acc p => max acc p.2) 1
  tf.map (fun p => (p.1, (p.2 : ℝ) / (maxFreq : ℝ)))

/-- `computeIDF`: document frequencies over the corpus, with
`idf = ln(docCount / count) + 1`. -/
noncomputable def computeIDF (documents : List (List JSStr)) :
    List (JSStr × ℝ) :=
  let docCount := documents.length
  let termDocCounts : List (JSStr × Nat) :=
    documents.foldl (fun m doc =>
      (firstDedup doc).foldl
        (fun m' t => alistSet m' t ((alistGet m' t).getD 0 + 1)) m) []
  termDocCounts.map (fun p =>
    (p.1, Real.log ((docCount : ℝ) / (p.2 : ℝ)) + 1))

/-- `computeTFIDF`: per-term TF×IDF with `ln 10` as the fallback for unknown
terms (the JavaScript `||` fallback; IDF values over this corpus are ≥ 1 and
hence never falsy). -/
noncomputable def computeTFIDF (tokens : List JSStr)
    (idf : List (JSStr × ℝ)) : List (JSStr × ℝ) :=
  (computeTF tokens).map (fun p =>
    (p.1, p.2 * ((alistGet idf p.1).getD (Real.log 10))))

open Classical in
/-- `cosineSimilarity` over sparse vectors, returning 0 when either norm
vanishes. -/
noncomputable def cosineSimilarity (v1 v2 : List (JSStr × ℝ)) : ℝ :=
  let dotProduct := v1.foldl (fun acc p => acc + p.2 * ((alistGet v2 p.1).getD 0)) 0
  let norm1 := v1.foldl (fun acc p => acc + p.2 * p.2) 0
  let norm2 := v2.foldl (fun acc p => acc + p.2 * p.2) 0
  let magnitude := Real.sqrt norm1 * Real.sqrt norm2
  if magnitude = 0 then 0 else dotProduct / magnitude

open Classical in
/-- The body of the candidate loop of `findMostSimilar`: consider a candidate
with similarity `sim` at index `i` only when it reaches the threshold, keeping
the strictly best one. -/
noncomputable def fmsStep (threshold sim : ℝ) (i : Nat)
    (best : Option (Nat × ℝ)) : Option (Nat × ℝ) :=
  if sim ≥ threshold then
    match best with
    | none => some (i, sim)
    | some b => if sim > b.2 then some (i, sim) else some b
  else best

/-- The candidate loop of `findMostSimilar`, with explicit index counter. -/
noncomputable def fmsGo (queryVector : List (JSStr × ℝ))
    (idf : List (JSStr × ℝ)) (threshold : ℝ) :
    List (List JSStr) → Nat → Option (Nat × ℝ) → Option (Nat × ℝ)
  | [], _, best => best
  | c :: rest, i, best =>
    fmsGo queryVector idf threshold rest (i + 1)
      (fmsStep threshold (cosineSimilarity queryVector (computeTFIDF c idf)) i best)

/-- `findMostSimilar`: IDF over candidates plus query, best cosine at or above
the threshold. -/
noncomputable def findMostSimilar (queryTokens : List JSStr)
    (candidateTokens : List (List JSStr)) (threshold : ℝ) :
    Option (Nat × ℝ) :=
  if candidateTokens.isEmpty then none
  else
    let idf := computeIDF (candidateTokens ++ [queryTokens])
    let queryVector := computeTFIDF queryTokens idf
    fmsGo queryVector idf threshold candidateTokens 0 none

open Classical in
/-- `platformOverlapBonus`: 0.2 per shared (lowercased) platform, capped at
0.4; 0 when either side is empty. -/
noncomputable def platformOverlapBonus (platforms1 platforms2 : List JSStr) : ℝ :=
  if platforms1.isEmpty || platforms2.isEmpty then 0
  else
    let set1 := firstDedup (platforms1.map jsLower)
    let set2 := platforms2.map jsLower
    let overlap := (set1.filter (fun p => set2.contains p)).length
    min ((overlap : ℝ) * 0.2) 0.4

/-- The candidate data used by Phase 2 of the clusterer. -/
structure ClusterCandidateM where
  searchText : JSStr
  platformSlugs : List JSStr

open Classical in
/-- The pure decision core of `findSimilarCluster`: tokenize the signal's
search text and the Phase-1 candidates, run `findMostSimilar`, then add the
platform-overlap bonus of the winning candidate and re-check the threshold.
Returns the index of the cluster the signal is attached to. -/
noncomputable def findSimilarClusterDecision (signalSearchText : JSStr)
    (candidates : List ClusterCandidateM) (signalPlatforms : List JSStr)
    (threshold : ℝ) : Option Nat :=
  if candidates.isEmpty then none
  else
    let signalTokens := tokenize signalSearchText
    let candidateTokens := candidates.map (fun c => tokenize c.searchText)
    match findMostSimilar signalTokens candidateTokens threshold with
    | none => none
    | some (i, sim) =>
      let bestCandidate := (candidates.get? i).getD ⟨[], []⟩
      let bonus := platformOverlapBonus signalPlatforms bestCandidate.platformSlugs
      if sim + bonus < threshold then none else some i

open Classical in
/-- First-index argmax over a list of scores. -/
noncomputable def argmaxGo : List ℝ → Nat → Option (Nat × ℝ) → Option (Nat × ℝ)
  | [], _, best => best
  | v :: rest, i, best =>
    argmaxGo rest (i + 1)
      (match best with
       | none => some (i, v)
       | some b => if v > b.2 then some (i, v) else some b)

open Classical in
/-- Modelled from the spec (§4.6 step 4) for comparison: add the
platform-overlap bonus to every candidate's cosine and attach to the
candidate with the best adjusted score iff that best adjusted score reaches
the threshold. -/
noncomputable def specPhase2Decision (signalSearchText : JSStr)
    (candidates : List ClusterCandidateM) (signalPlatforms : List JSStr)
    (threshold : ℝ) : Option Nat :=
  if candidates.isEmpty then none
  else
    let signalTokens := tokenize signalSearchText
    let candidateTokens := candidates.map (fun c => tokenize c.searchText)
    let idf := computeIDF (candidateTokens ++ [signalTokens])
    let queryVector := computeTFIDF signalTokens idf
    let adjusted : List ℝ := candidates.map (fun c =>
      cosineSimilarity queryVector (computeTFIDF (tokenize c.searchText) idf) +
        platformOverlapBonus signalPlatforms c.platformSlugs)
    match argmaxGo adjusted 0 none with
    | none => none
    | some (i, v) => if threshold ≤ v then some i else none

/-- The C2 scenario signal search text. -/
def c2SignalText : JSStr := "alpha bravo".toList

/-- The C2 scenario candidate search text (token-disjoint from the signal). -/
def c2CandidateText : JSStr := "delta echoes".toList

/-- The C2 scenario platform slugs, shared by signal and candidate. -/
def c2Platforms : List JSStr := ["replika".toList, "nomi".toList]

/-- The C2 scenario Phase-1 candidate. -/
def c2Candidate : ClusterCandidateM :=
  { searchText := c2CandidateText, platformSlugs := c2Platforms }

end SimilarityLib

namespace NormalizeLib

/-- Entities extracted by the LLM (validated shape). -/
structure NormEntities where
  platforms : List JSStr
  companies : List JSStr
  people : List JSStr
  topics : List JSStr

/-- A validated LLM normalization result (`NormalizeResultSchema`); JavaScript
float confidence is modelled as `ℚ`. -/
structure NormalizeResult where
  summary : JSStr
  suggestedHeadline : JSStr
  categories : List RankLib.Category
  entities : NormEntities
  confidence : ℚ

/-- A successful provider response (`LLMResponse`). -/
structure LLMResponseM where
  result : NormalizeResult
  rawResponse : JSStr
  model : JSStr
  promptVersion : JSStr

/-- Signal ingest statuses. -/
inductive IngestStatus
  | PENDING
  | ACCEPTED
  | REJECTED
  | FAILED
deriving DecidableEq

/-- Entities as stored on an accepted signal: the validated entities with
platforms replaced by the known slugs and the unknown slugs recorded. -/
structure OutEntities where
  platforms : List JSStr
  companies : List JSStr
  people : List JSStr
  topics : List JSStr
  unknownPlatforms : List JSStr

/-- The `NormalizeOutput` record produced by `normalizeSignal`. -/
structure NormalizeOutput where
  success : Bool
  ingestStatus : IngestStatus
  ingestReason : Option JSStr
  normalizedSummary : Option JSStr
  suggestedHeadline : Option JSStr
  categories : Option (List RankLib.Category)
  entities : Option OutEntities
  confidence : Option ℚ
  imageUrl : Option JSStr
  llmProvider : Option JSStr
  llmModel : Option JSStr
  promptVersion : Option JSStr
  llmRawResponse : Option JSStr

/-- An output with every optional field absent. -/
def emptyOutput : NormalizeOutput :=
  { success := false, ingestStatus := .PENDING, ingestReason := none,
    normalizedSummary := none, suggestedHeadline := none, categories := none,
    entities := none, confidence := none, imageUrl := none, llmProvider := none,
    llmModel := none, promptVersion := none, llmRawResponse := none }

/-- Constants of the normalize module. -/
def MAX_RAW_RESPONSE_LENGTH : Nat := 20000

/-- Minimum combined text length below which the LLM is not called. -/
def MIN_TEXT_LENGTH : Nat := 50

/-- The accept/reject confidence boundary. -/
def MIN_CONFIDENCE_THRESHOLD : ℚ := mkRat 6 10

/-- JavaScript `Number.prototype.toFixed(2)` for confidences in `[0, 1]`
(ties round up, per the ECMAScript algorithm): the scaled value
`floor(100q + 1/2)` is computed on numerator and denominator directly. -/
def toFixed2 (q : ℚ) : JSStr :=
  let n := (Int.fdiv (200 * q.num + (q.den : Int)) (2 * (q.den : Int))).toNat
  HashLib.natDecimal (n / 100) ++ ['.'] ++ HashLib.padNum 2 ((n % 100 : Nat) : Int)

/-- JavaScript truthy string filter used when assembling `textParts`. -/
def truthyParts (l : List (Option JSStr)) : List JSStr :=
  l.filterMap (fun o => match o with
    | some s => if s.isEmpty then none else some s
    | none => none)

/-- The text handed to the LLM: truthy title and raw text joined by a blank
line. -/
def buildText (title rawText : Option JSStr) : JSStr :=
  List.intercalate ('\n' :: '\n' :: []) (truthyParts [title, rawText])

/-- Outcome of the provider call (network and retry behaviour is external
I/O; the decision logic of `normalizeSignal` is a function of it). -/
inductive LLMOutcome
  | ok (r : LLMResponseM)
  | failed (message : JSStr)

/-- The decision logic of `normalizeSignal`: given the input text, the
provider outcome, the platform validation result and the (side-effecting)
Open Graph fetch result, produce the `NormalizeOutput` that will be
persisted. -/
def normalizeSignalModel (title rawText : Option JSStr) (outcome : LLMOutcome)
    (knownPlatforms unknownPlatforms : List JSStr) (ogImage : Option JSStr) :
    NormalizeOutput :=
  let text := buildText title rawText
  if text.length < MIN_TEXT_LENGTH then
    { emptyOutput with
        success := false
        ingestStatus := .REJECTED
        ingestReason := some ("Text too short (".toList ++
          HashLib.natDecimal text.length ++
          " chars, minimum ".toList ++ HashLib.natDecimal MIN_TEXT_LENGTH ++
          ")".toList) }
  else
    match outcome with
    | .failed message =>
      { emptyOutput with
          success := false
          ingestStatus := .FAILED
          ingestReason := some ("LLM error: ".toList ++ message) }
    | .ok response =>
      let confidence := response.result.confidence
      if confidence < MIN_CONFIDENCE_THRESHOLD then
        { emptyOutput with
            success := false
            ingestStatus := .REJECTED
            ingestReason := some ("Low relevance to AI companions (confidence: ".toList ++
              toFixed2 confidence ++ ")".toList)
            confidence := some confidence
            llmProvider := some "openai".toList
            llmModel := some response.model
            promptVersion := some response.promptVersion
            llmRawResponse := some (HashLib.truncateText response.rawResponse
              MAX_RAW_RESPONSE_LENGTH) }
      else
        { success := true
          ingestStatus := .ACCEPTED
          ingestReason := none
          normalizedSummary := some response.result.summary
          suggestedHeadline := some response.result.suggestedHeadline
          categories := some response.result.categories
          entities := some
            { platforms := knownPlatforms
              companies := response.result.entities.companies
              people := response.result.entities.people
              topics := response.result.entities.topics
              unknownPlatforms := unknownPlatforms }
          confidence := some confidence
          imageUrl := ogImage
          llmProvider := some "openai".toList
          llmModel := some response.model
          promptVersion := some response.promptVersion
          llmRawResponse := some (HashLib.truncateText response.rawResponse
            MAX_RAW_RESPONSE_LENGTH) }

/-- The subset of signal columns written by `updateSignalWithNormalization`
(`none` = column not written). -/
structure SignalUpdateData where
  ingestStatus : IngestStatus
  ingestReason : Option JSStr
  normalizedSummary : Option JSStr
  suggestedHeadline : Option JSStr
  categories : Option (List RankLib.Category)
  confidence : Option ℚ
  imageUrl : Option JSStr
  llmProvider : Option JSStr
  llmModel : Option JSStr
  promptVersion : Option JSStr
  llmRawResponse : Option JSStr

/-- `updateSignalWithNormalization`: the normalized fields — including the LLM
raw response — are written only when `output.success` is true. -/
def updateSignalData (output : NormalizeOutput) : SignalUpdateData :=
  if output.success then
    { ingestStatus := output.ingestStatus
      ingestReason := output.ingestReason
      normalizedSummary := output.normalizedSummary
      suggestedHeadline := output.suggestedHeadline
      categories := output.categories
      confidence := output.confidence
      imageUrl := output.imageUrl
      llmProvider := output.llmProvider
      llmModel := output.llmModel
      promptVersion := output.promptVersion
      llmRawResponse := output.llmRawResponse }
  else
    { ingestStatus := output.ingestStatus
      ingestReason := output.ingestReason
      normalizedSummary := none
      suggestedHeadline := none
      categories := none
      confidence := none
      imageUrl := none
      llmProvider := none
      llmModel := none
      promptVersion := none
      llmRawResponse := none }

/-- A concrete low-confidence provider response: a validated parse with
confidence 0.5. -/
def lowConfidenceResponse : LLMResponseM :=
  { result :=
      { summary := "ChatGPT enterprise rollout announced.".toList
        suggestedHeadline := "ChatGPT expands to enterprise".toList
        categories := [RankLib.Category.PRODUCT_UPDATE]
        entities := { platforms := [], companies := [], people := [], topics := [] }
        confidence := mkRat 1 2 }
    rawResponse := "raw-json-response".toList
    model := "gpt-4o-mini".toList
    promptVersion := "v1.1".toList }

/-- The concrete failing input for C3: a long-enough article whose LLM
response validates with confidence 0.5. -/
def lowConfidenceOutput : NormalizeOutput :=
  normalizeSignalModel
    (some "ChatGPT launches an enterprise tier for large businesses".toList)
    (some "OpenAI announced a new enterprise offering of ChatGPT with admin controls and better data privacy guarantees for large customers.".toList)
    (.ok lowConfidenceResponse) [] [] none

end NormalizeLib

namespace FeedLib

/-- The columns of a story cluster involved in feed ordering and cursors
(`lastSignalAt` in epoch milliseconds; ids compared as Postgres compares the
ASCII cuid strings, i.e. lexicographically). -/
structure ClusterRow where
  importanceScore : Int
  lastSignalAt : Int
  id : List Char
deriving DecidableEq

/-- `buildCursorWhere` from `src/app/api/clusters/route.ts`: the keyset
predicate added to the WHERE clause for a decoded cursor `c` (C9 shows the
cursor round-trips, so a cursor produced from a row carries exactly the row's
three key fields). -/
def buildCursorWhere (c : ClusterRow) (r : ClusterRow) : Bool :=
  decide (r.importanceScore < c.importanceScore) ||
  (r.importanceScore == c.importanceScore &&
    decide (r.lastSignalAt < c.lastSignalAt)) ||
  (r.importanceScore == c.importanceScore &&
    r.lastSignalAt == c.lastSignalAt && decide (r.id < c.id))

/-- The sort key of `ORDER BY importanceScore DESC, lastSignalAt DESC, id
DESC`: a row `r` is printed strictly after a row `c` exactly when
`rowKey r < rowKey c` in the lexicographic order on the key triple. -/
def rowKey (r : ClusterRow) : Lex (Int × Lex (Int × List Char)) :=
  toLex (r.importanceScore, toLex (r.lastSignalAt, r.id))

/-- A feed snapshot: the rows matching the filters at cursor-creation time,
listed in output order (strictly descending keys; ids are unique, so the
order is strict). -/
abbrev sortedSnapshot (l : List ClusterRow) : Prop :=
  List.Pairwise (fun a b => rowKey b < rowKey a) l

/-- One `GET /clusters` evaluation against a fixed snapshot: apply the keyset
predicate, fetch `limit + 1` rows, return at most `limit` of them plus the
next cursor taken from the last returned row when more rows exist. -/
def getPage (snapshot : List ClusterRow) (limit : Nat)
    (cursor : Option ClusterRow) : List ClusterRow × Option ClusterRow :=
  let filtered := match cursor with
    | some c => snapshot.filter (fun r => buildCursorWhere c r)
    | none => snapshot
  let fetched := filtered.take (limit + 1)
  let hasMore : Bool := decide (limit < fetched.length)
  let returned := if hasMore then fetched.take limit else fetched
  (returned, if hasMore then returned.getLast? else none)

/-- A paging walk: follow `nextCursor` until exhausted (fuel-bounded),
concatenating the returned pages. -/
def walk (snapshot : List ClusterRow) (limit : Nat) :
    Nat → Option ClusterRow → List ClusterRow
  | 0, _ => []
  | fuel + 1, cursor =>
    let p := getPage snapshot limit cursor
    match p.2 with
    | none => p.1
    | some c => p.1 ++ walk snapshot limit fuel (some c)

end FeedLib

namespace CursorLib

/-! UTF-8, as performed by `Buffer.from(string)` (encode) and
`buffer.toString()` (lossy decode, invalid sequences become U+FFFD). -/

/-- The Unicode replacement character. -/
def replChar : Char := Char.ofNat 0xFFFD

/-- UTF-8 encoding of one scalar value. -/
def utf8EncodeChar (c : Char) : List Nat :=
  let v := c.toNat
  if v < 0x80 then [v]
  else if v < 0x800 then [0xC0 + v / 64, 0x80 + v % 64]
  else if v < 0x10000 then
    [0xE0 + v / 4096, 0x80 + (v / 64) % 64, 0x80 + v % 64]
  else
    [0xF0 + v / 262144, 0x80 + (v / 4096) % 64, 0x80 + (v / 64) % 64,
      0x80 + v % 64]

/-- UTF-8 encoding of a string. -/
def utf8Encode (s : List Char) : List Nat := s.flatMap utf8EncodeChar

/-- Continuation-byte test. -/
def isCont (b : Nat) : Bool := 0x80 ≤ b && b < 0xC0

/-- Valid second byte of a three-byte sequence (excludes overlong forms and
surrogates). -/
def cont3Ok (b b1 : Nat) : Bool :=
  isCont b1 && (b ≠ 0xE0 || 0xA0 ≤ b1) && (b ≠ 0xED || b1 < 0xA0)

/-- Valid second byte of a four-byte sequence (excludes overlong forms and
values above U+10FFFF). -/
def cont4Ok (b b1 : Nat) : Bool :=
  isCont b1 && (b ≠ 0xF0 || 0x90 ≤ b1) && (b ≠ 0xF4 || b1 < 0x90)

/-- Lossy UTF-8 decoding (fuel-bounded; one produced character per unit of
fuel). -/
def utf8DecodeAux : Nat → List Nat → List Char
  | 0, _ => []
  | fuel + 1, bytes =>
    match bytes with
    | [] => []
    | b :: rest =>
      if b < 0x80 then Char.ofNat b :: utf8DecodeAux fuel rest
      else if 0xC2 ≤ b && b ≤ 0xDF then
        match rest with
        | b1 :: rest2 =>
          if isCont b1 then
            Char.ofNat ((b - 0xC0) * 64 + (b1 - 0x80)) :: utf8DecodeAux fuel rest2
          else replChar :: utf8DecodeAux fuel rest
        | [] => [replChar]
      else if 0xE0 ≤ b && b ≤ 0xEF then
        match rest with
        | b1 :: b2 :: rest3 =>
          if cont3Ok b b1 && isCont b2 then
            Char.ofNat ((b - 0xE0) * 4096 + (b1 - 0x80) * 64 + (b2 - 0x80)) ::
              utf8DecodeAux fuel rest3
          else replChar :: utf8DecodeAux fuel rest
        | _ => replChar :: utf8DecodeAux fuel rest
      else if 0xF0 ≤ b && b ≤ 0xF4 then
        match rest with
        | b1 :: b2 :: b3 :: rest4 =>
          if cont4Ok b b1 && isCont b2 && isCont b3 then
            Char.ofNat ((b - 0xF0) * 262144 + (b1 - 0x80) * 4096 +
              (b2 - 0x80) * 64 + (b3 - 0x80)) :: utf8DecodeAux fuel rest4
          else replChar :: utf8DecodeAux fuel rest
        | _ => replChar :: utf8DecodeAux fuel rest
      else replChar :: utf8DecodeAux fuel rest

/-- Lossy UTF-8 decoding of a byte list. -/
def utf8DecodeLossy (bytes : List Nat) : List Char :=
  utf8DecodeAux bytes.length bytes

/-! URL-safe base64 without padding, as produced by
`Buffer.toString('base64url')` and consumed leniently by
`Buffer.from(_, 'base64url')` (non-alphabet characters are ignored, a lone
trailing character is dropped). -/

/-- The base64url alphabet. -/
def b64Char (n : Nat) : Char :=
  if n < 26 then Char.ofNat (65 + n)
  else if n < 52 then Char.ofNat (97 + (n - 26))
  else if n < 62 then Char.ofNat (48 + (n - 52))
  else if n = 62 then '-'
  else '_'

/-- Index of a character in the base64 alphabet (both the url-safe and the
standard variants are accepted, as in Node). -/
def b64Index (c : Char) : Option Nat :=
  let v := c.toNat
  if 65 ≤ v && v ≤ 90 then some (v - 65)
  else if 97 ≤ v && v ≤ 122 then some (v - 97 + 26)
  else if 48 ≤ v && v ≤ 57 then some (v - 48 + 52)
  else if c = '-' || c = '+' then some 62
  else if c = '_' || c = '/' then some 63
  else none

/-- Encode byte triples into character quadruples (trailing 1 or 2 bytes into
2 or 3 characters, without padding). -/
def b64EncodeGroups : List Nat → List Char
  | [] => []
  | [b0] => [b64Char (b0 / 4), b64Char (b0 % 4 * 16)]
  | [b0, b1] =>
    [b64Char (b0 / 4), b64Char (b0 % 4 * 16 + b1 / 16), b64Char (b1 % 16 * 4)]
  | b0 :: b1 :: b2 :: rest =>
    b64Char (b0 / 4) :: b64Char (b0 % 4 * 16 + b1 / 16) ::
      b64Char (b1 % 16 * 4 + b2 / 64) :: b64Char (b2 % 64) ::
      b64EncodeGroups rest

/-- Decode character sextet values back into bytes. -/
def b64DecodeGroups : List Nat → List Nat
  | [] => []
  | [_] => []
  | [c0, c1] => [c0 * 4 + c1 / 16]
  | [c0, c1, c2] => [c0 * 4 + c1 / 16, c1 % 16 * 16 + c2 / 4]
  | c0 :: c1 :: c2 :: c3 :: rest =>
    (c0 * 4 + c1 / 16) :: (c1 % 16 * 16 + c2 / 4) :: (c2 % 4 * 64 + c3) ::
      b64DecodeGroups rest

/-- `Buffer.toString('base64url')`. -/
def b64urlEncode (bytes : List Nat) : List Char := b64EncodeGroups bytes

/-- `Buffer.from(_, 'base64url')`, lenient. -/
def b64urlDecode (s : List Char) : List Nat :=
  b64DecodeGroups (s.filterMap b64Index)

/-! A JSON value model and a parser for `JSON.parse` (numbers as exact
rationals). -/

/-- JSON values. -/
inductive Json where
  | null
  | bool (b : Bool)
  | num (q : ℚ)
  | str (s : List Char)
  | arr (elems : List Json)
  | obj (fields : List (List Char × Json))

/-- JSON whitespace (the exact set accepted by `JSON.parse`). -/
def isJsonWs (c : Char) : Bool :=
  c = ' ' || c = '\t' || c = '\n' || Char.toNat c = 13

/-- Skip leading JSON whitespace. -/
def skipWs (l : List Char) : List Char := l.dropWhile isJsonWs

/-- Value of a hexadecimal digit. -/
def hexVal (c : Char) : Option Nat :=
  let v := c.toNat
  if 48 ≤ v && v ≤ 57 then some (v - 48)
  else if 97 ≤ v && v ≤ 102 then some (v - 97 + 10)
  else if 65 ≤ v && v ≤ 70 then some (v - 65 + 10)
  else none

/-- Read four hex digits. -/
def parseHex4 : List Char → Option (Nat × List Char)
  | c0 :: c1 :: c2 :: c3 :: rest =>
    match hexVal c0, hexVal c1, hexVal c2, hexVal c3 with
    | some v0, some v1, some v2, some v3 =>
      some (v0 * 4096 + v1 * 256 + v2 * 16 + v3, rest)
    | _, _, _, _ => none
  | _ => none

/-- Parse a JSON string body after the opening quote, handling escapes; lone
surrogate escapes are modelled as U+FFFD. -/
def parseStringBody : Nat → List Char → Option (List Char × List Char)
  | 0, _ => none
  | _ + 1, [] => none
  | fuel + 1, c :: rest =>
    if c = '"' then some ([], rest)
    else if c = '\\' then
      match rest with
      | [] => none
      | e :: rest2 =>
        if e = '"' then
          (parseStringBody fuel rest2).map (fun p => ('"' :: p.1, p.2))
        else if e = '\\' then
          (parseStringBody fuel rest2).map (fun p => ('\\' :: p.1, p.2))
        else if e = '/' then
          (parseStringBody fuel rest2).map (fun p => ('/' :: p.1, p.2))
        else if e = 'b' then
          (parseStringBody fuel rest2).map (fun p => (Char.ofNat 8 :: p.1, p.2))
        else if e = 'f' then
          (parseStringBody fuel rest2).map (fun p => (Char.ofNat 12 :: p.1, p.2))
        else if e = 'n' then
          (parseStringBody fuel rest2).map (fun p => ('\n' :: p.1, p.2))
        else if e = 'r' then
          (parseStringBody fuel rest2).map (fun p => (Char.ofNat 13 :: p.1, p.2))
        else if e = 't' then
          (parseStringBody fuel rest2).map (fun p => ('\t' :: p.1, p.2))
        else if e = 'u' then
          match parseHex4 rest2 with
          | none => none
          | some (v, rest3) =>
            if 0xD800 ≤ v && v < 0xDC00 then
              match rest3 with
              | '\\' :: 'u' :: rest4 =>
                match parseHex4 rest4 with
                | some (v2, rest5) =>
                  if 0xDC00 ≤ v2 && v2 < 0xE000 then
                    (parseStringBody fuel rest5).map (fun p =>
                      (Char.ofNat (0x10000 + (v - 0xD800) * 1024 + (v2 - 0xDC00)) ::
                        p.1, p.2))
                  else
                    (parseStringBody fuel rest3).map (fun p => (replChar :: p.1, p.2))
                | none =>
                  (parseStringBody fuel rest3).map (fun p => (replChar :: p.1, p.2))
              | _ =>
                (parseStringBody fuel rest3).map (fun p => (replChar :: p.1, p.2))
            else if 0xDC00 ≤ v && v < 0xE000 then
              (parseStringBody fuel rest3).map (fun p => (replChar :: p.1, p.2))
            else
              (parseStringBody fuel rest3).map (fun p => (Char.ofNat v :: p.1, p.2))
        else none
    else if c.toNat < 0x20 then none
    else (parseStringBody fuel rest).map (fun p => (c :: p.1, p.2))

/-- Greedily read decimal digits, returning value, digit count and rest. -/
def digitsLoop : List Char → Nat → Nat → Nat × Nat × List Char
  | [], acc, n => (acc, n, [])
  | c :: rest, acc, n =>
    if c.isDigit then digitsLoop rest (acc * 10 + (c.toNat - 48)) (n + 1)
    else (acc, n, c :: rest)

/-- Parse a JSON number (exact rational semantics). -/
def parseJsonNumber (l : List Char) : Option (ℚ × List Char) :=
  let neg : Bool := l.head? = some '-'
  let l1 := if l.head? = some '-' then l.tail else l
  let (intVal, intCount, l2) := digitsLoop l1 0 0
  if intCount = 0 then none
  else if 1 < intCount && l1.head? = some '0' then none
  else
    let (fracVal, fracCount, l3) :=
      if l2.head? = some '.' then digitsLoop l2.tail 0 0 else (0, 0, l2)
    if l2.head? = some '.' && fracCount = 0 then none
    else
      let hasExp := l3.head? = some 'e' || l3.head? = some 'E'
      let expSign := l3.tail.head?
      let expNeg : Bool := hasExp && expSign = some '-'
      let l4 := if hasExp then
          (if expSign = some '-' || expSign = some '+' then l3.tail.tail
            else l3.tail)
        else l3
      if hasExp then
        let (expVal, expCount, l5) := digitsLoop l4 0 0
        if expCount = 0 then none
        else
          let base : ℚ := (intVal : ℚ) + (fracVal : ℚ) / ((10 : ℚ) ^ fracCount)
          let signed : ℚ := if neg then -base else base
          let scaled : ℚ := if expNeg then signed / ((10 : ℚ) ^ expVal)
            else signed * ((10 : ℚ) ^ expVal)
          some (scaled, l5)
      else
        let base : ℚ := (intVal : ℚ) + (fracVal : ℚ) / ((10 : ℚ) ^ fracCount)
        some (if neg then -base else base, l3)

mutual

/-- Parse one JSON value (fuel-bounded; `JSON.parse` without reviver). -/
def parseJsonValue : Nat → List Char → Option (Json × List Char)
  | 0, _ => none
  | fuel + 1, l =>
    match skipWs l with
    | [] => none
    | c :: rest =>
      if c = 'n' then
        match rest with
        | 'u' :: 'l' :: 'l' :: rest2 => some (Json.null, rest2)
        | _ => none
      else if c = 't' then
        match rest with
        | 'r' :: 'u' :: 'e' :: rest2 => some (Json.bool true, rest2)
        | _ => none
      else if c = 'f' then
        match rest with
        | 'a' :: 'l' :: 's' :: 'e' :: rest2 => some (Json.bool false, rest2)
        | _ => none
      else if c = '"' then
        (parseStringBody (rest.length + 1) rest).map (fun p => (Json.str p.1, p.2))
      else if c = '[' then
        parseArrayItems fuel (skipWs rest) []
      else if c = Char.ofNat 123 then
        parseObjMembers fuel (skipWs rest) []
      else if c = '-' || c.isDigit then
        (parseJsonNumber (c :: rest)).map (fun p => (Json.num p.1, p.2))
      else none

/-- Parse the items of an array after `[` (accumulator holds parsed items in
reverse). -/
def parseArrayItems : Nat → List Char → List Json → Option (Json × List Char)
  | 0, _, _ => none
  | fuel + 1, l, acc =>
    match l, acc with
    | ']' :: rest, [] => some (Json.arr [], rest)
    | _, _ =>
      match parseJsonValue fuel l with
      | none => none
      | some (v, rest) =>
        match skipWs rest with
        | ',' :: rest2 => parseArrayItems fuel rest2 (v :: acc)
        | ']' :: rest2 => some (Json.arr (v :: acc).reverse, rest2)
        | _ => none

/-- Parse the members of an object after the opening brace (accumulator holds
parsed members in reverse). -/
def parseObjMembers : Nat → List Char → List (List Char × Json) →
    Option (Json × List Char)
  | 0, _, _ => none
  | fuel + 1, l, acc =>
    match l, acc with
    | c :: rest, [] =>
      if c = Char.ofNat 125 then some (Json.obj [], rest)
      else parseObjMember fuel (c :: rest) []
    | _, _ => parseObjMember fuel l acc

/-- Parse one `"key": value` member and the following separator. -/
def parseObjMember : Nat → List Char → List (List Char × Json) →
    Option (Json × List Char)
  | 0, _, _ => none
  | fuel + 1, l, acc =>
    match l with
    | q :: rest =>
      if q = '"' then
        match parseStringBody (rest.length + 1) rest with
        | none => none
        | some (key, rest2) =>
          match skipWs rest2 with
          | sep :: rest3 =>
            if sep = ':' then
              match parseJsonValue fuel rest3 with
              | none => none
              | some (v, rest4) =>
                match skipWs rest4 with
                | c :: rest5 =>
                  if c = ',' then
                    parseObjMembers fuel (skipWs rest5) ((key, v) :: acc)
                  else if c = Char.ofNat 125 then
                    some (Json.obj ((key, v) :: acc).reverse, rest5)
                  else none
                | [] => none
            else none
          | [] => none
      else none
    | [] => none

end

/-- `JSON.parse`: parse one value and require only trailing whitespace. -/
def jsonParseTop (l : List Char) : Option Json :=
  match parseJsonValue (l.length + 1) l with
  | none => none
  | some (v, rest) => if (skipWs rest).isEmpty then some v else none

/-- Property access on a parsed JSON value: objects yield their last binding
for the key (later duplicate keys win in `JSON.parse`), everything else
yields `undefined`. -/
def jsonFieldOf (j : Json) (k : List Char) : Option Json :=
  match j with
  | Json.obj fields => (fields.reverse.find? (fun p => p.1 = k)).map Prod.snd
  | _ => none

/-- The raw object read out of a decoded cursor: the three properties as
`JSON.parse` produced them (`none` = `undefined`). -/
structure RawCursor where
  importanceScore : Option Json
  lastSignalAt : Option Json
  id : Option Json

/-- `decodeCursor` from the clusters route: lenient base64url decode, lossy
UTF-8 decode, `JSON.parse` (returning null on throw), then property reads. -/
def decodeCursor (s : List Char) : Option RawCursor :=
  match jsonParseTop (utf8DecodeLossy (b64urlDecode s)) with
  | none => none
  | some j =>
    some { importanceScore := jsonFieldOf j "importanceScore".toList
           lastSignalAt := jsonFieldOf j "lastSignalAt".toList
           id := jsonFieldOf j "id".toList }

/-- A hexadecimal digit as emitted by `JSON.stringify` (lowercase). -/
def hexDigitChar (n : Nat) : Char :=
  if n < 10 then Char.ofNat (48 + n) else Char.ofNat (87 + n)

/-- `JSON.stringify` escaping of one character. -/
def jsonEscapeChar (c : Char) : List Char :=
  if c = '"' then ['\\', '"']
  else if c = '\\' then ['\\', '\\']
  else if c = '\n' then ['\\', 'n']
  else if Char.toNat c = 13 then ['\\', 'r']
  else if c = '\t' then ['\\', 't']
  else if Char.toNat c = 8 then ['\\', 'b']
  else if Char.toNat c = 12 then ['\\', 'f']
  else if c.toNat < 0x20 then
    ['\\', 'u', '0', '0', hexDigitChar (c.toNat / 16), hexDigitChar (c.toNat % 16)]
  else [c]

/-- `JSON.stringify` escaping of a string body. -/
def jsonEscape (s : List Char) : List Char := s.flatMap jsonEscapeChar

/-- Decimal rendering of an integer, as `JSON.stringify` renders the integer
`importanceScore`. -/
def intRepr (n : Int) : List Char :=
  if n < 0 then '-' :: HashLib.natDecimal (-n).toNat
  else HashLib.natDecimal n.toNat

/-- The JSON text produced by `JSON.stringify` in `encodeCursor` for a cursor
with integer score, ISO-string `lastSignalAt` and string id. -/
def cursorJsonChars (score : Int) (lastISO id : List Char) : List Char :=
  Char.ofNat 123 :: '"' :: ("importanceScore".toList ++ '"' :: ':' ::
    (intRepr score ++ ',' :: '"' :: ("lastSignalAt".toList ++ '"' :: ':' ::
      '"' :: (jsonEscape lastISO ++ '"' :: ',' :: '"' :: ("id".toList ++
        '"' :: ':' :: '"' :: (jsonEscape id ++ '"' :: Char.ofNat 125 :: []))))))

/-- `encodeCursor` from the clusters route, at the point where the row's
`lastSignalAt` has already been rendered by `toISOString()`. -/
def encodeCursor (score : Int) (lastISO id : List Char) : List Char :=
  b64urlEncode (utf8Encode (cursorJsonChars score lastISO id))

/-- The cursor object that `decodeCursor` yields for a well-formed encoded
cursor. -/
def rawCursorOf (score : Int) (lastISO id : List Char) : RawCursor :=
  { importanceScore := some (Json.num (score : ℚ))
    lastSignalAt := some (Json.str lastISO)
    id := some (Json.str id) }

/-- The `GET /clusters` cursor handling over a fixed snapshot: a missing or
undecodable cursor parameter adds no keyset predicate; a decoded cursor is
handed to `handleRaw`, which models Prisma's interpretation of the decoded
object (and may fail, as Prisma does on an invalid date). -/
def routeFirstPage (handleRaw : RawCursor → Except Unit (FeedLib.ClusterRow → Bool))
    (snapshot : List FeedLib.ClusterRow) (limit : Nat)
    (cursorParam : Option (List Char)) :
    Except Unit (List FeedLib.ClusterRow × Option FeedLib.ClusterRow) :=
  match cursorParam with
  | none => Except.ok (FeedLib.getPage snapshot limit none)
  | some s =>
    match decodeCursor s with
    | none => Except.ok (FeedLib.getPage snapshot limit none)
    | some raw =>
      match handleRaw raw with
      | Except.error e => Except.error e
      | Except.ok pred =>
        let filtered := snapshot.filter pred
        let fetched := filtered.take (limit + 1)
        let hasMore : Bool := decide (limit < fetched.length)
        let returned := if hasMore then fetched.take limit else fetched
        Except.ok (returned, if hasMore then returned.getLast? else none)

end CursorLib

-- ============================================================================
-- Theorems
-- ============================================================================

namespace ClusterLib

theorem foldl_attach_firstSeenAt (ts : List Int) (init : ClusterTimes) :
    (ts.foldl (fun c t => attachSignalToClusterTimes t c) init).firstSeenAt =
      init.firstSeenAt := by
  induction ts generalizing init with
  | nil => rfl
  | cons t ts ih => simpa [attachSignalToClusterTimes] using ih _

theorem foldl_attach_inv (ts : List Int) (init : ClusterTimes)
    (h0 : init.firstSeenAt ≤ init.lastSignalAt)
    (h1 : ∀ t ∈ ts, init.firstSeenAt ≤ t) :
    (ts.foldl (fun c t => attachSignalToClusterTimes t c) init).firstSeenAt ≤
      (ts.foldl (fun c t => attachSignalToClusterTimes t c) init).lastSignalAt := by
  induction ts generalizing init with
  | nil => exact h0
  | cons t ts ih =>
    refine ih (attachSignalToClusterTimes t init) ?_ ?_
    · exact h1 t (List.mem_cons_self t ts)
    · intro u hu
      exact h1 u (List.mem_cons_of_mem t hu)

end ClusterLib

/-- C5 counterexample: a cluster freshly created by `createNewCluster` from a
signal whose `publishedAt` (100) is later than its `createdAt` (50) has
`firstSeenAt = 100 > 50 = lastSignalAt`, violating the claimed invariant
`lastSignalAt ≥ firstSeenAt`. -/
theorem C5_createNewCluster_violates_invariant :
    ¬ ((ClusterLib.createNewClusterTimes (some 100) 50).firstSeenAt ≤
       (ClusterLib.createNewClusterTimes (some 100) 50).lastSignalAt) := by
  decide

/-- C5 (amended): `lastSignalAt ≥ firstSeenAt` holds for every cluster state
reachable by `createNewCluster` followed by `attachSignalToCluster` steps,
provided the creating signal's effective `publishedAt` does not exceed its
`createdAt` and every attachment happens no earlier than that effective
first-seen time. -/
theorem C5_lastSignalAt_ge_firstSeenAt (publishedAt : Option Int)
    (createdAt : Int) (attachTimes : List Int)
    (hpub : publishedAt.getD createdAt ≤ createdAt)
    (hmono : ∀ t ∈ attachTimes, publishedAt.getD createdAt ≤ t) :
    (ClusterLib.runClusterTimes publishedAt createdAt attachTimes).firstSeenAt ≤
      (ClusterLib.runClusterTimes publishedAt createdAt attachTimes).lastSignalAt := by
  unfold ClusterLib.runClusterTimes
  exact ClusterLib.foldl_attach_inv _ _ hpub hmono

/-- C5 witness: the amended invariant at a concrete history (signal published
at 10, stored at 20, attachments at 30 and 40). -/
theorem C5_lastSignalAt_ge_firstSeenAt_witness :
    (ClusterLib.runClusterTimes (some 10) 20 [30, 40]).firstSeenAt ≤
      (ClusterLib.runClusterTimes (some 10) 20 [30, 40]).lastSignalAt :=
  C5_lastSignalAt_ge_firstSeenAt (some 10) 20 [30, 40] (by decide) (by decide)

namespace TruncateLib

theorem truncateRequired_length_le (t : JSStr) (f : TruncateField) :
    (truncateRequired t f).length ≤ LIMITS f := by
  unfold truncateRequired
  by_cases h : t.length ≤ LIMITS f
  · simp [h]
  · have h3 : 3 ≤ LIMITS f := by cases f <;> decide
    have hlen : (t.take (LIMITS f - 3)).length = LIMITS f - 3 := by
      rw [List.length_take]
      omega
    simp only [h, if_false]
    rw [List.length_append, hlen]
    simp [ellipsisChars]
    omega

end TruncateLib

/-- C7: the bounded-field truncation helpers `truncate`/`truncateRequired`
respect their limits, but the word-boundary `truncateText` used for `rawText`
and the LLM raw response does not: on a 21-character spaceless input with
limit 10 it returns a 13-character string, exceeding the limit — so the
claim's "holds for all truncation paths, including the word-boundary
truncation" fails on the code. -/
theorem C7_truncateText_exceeds_limit :
    (∀ (t : JSStr) (f : TruncateLib.TruncateField),
       (TruncateLib.truncateRequired t f).length ≤ TruncateLib.LIMITS f) ∧
    (HashLib.truncateText (List.replicate 21 'a') 10).length = 13 := by
  constructor
  · exact TruncateLib.truncateRequired_length_le
  · decide

/-- C8 counterexample: with `DIRECT_MODE_TIMEOUT_MS` unset, the environment
schema resolves the cycle budget to 55000 ms, not the claimed 120000 ms. -/
theorem C8_default_timeout_not_120000 :
    EnvLib.resolveDirectModeTimeoutMs none ≠ some 120000 := by
  decide

/-- C8 (amended): with `DIRECT_MODE_TIMEOUT_MS` unset the wall-clock budget
defaults to 55000 ms, and under that default the pipeline runner skips a
remaining normalization task exactly when elapsed time exceeds
55000 − 10000 = 45000 ms. -/
theorem C8_default_timeout_and_margin :
    EnvLib.resolveDirectModeTimeoutMs none = some 55000 ∧
    ∀ nowMs startMs : Int,
      EnvLib.normalizeTimeBudgetExceeded nowMs startMs 55000 =
        decide (nowMs - startMs > 45000) := by
  refine ⟨by decide, ?_⟩
  intro nowMs startMs
  unfold EnvLib.normalizeTimeBudgetExceeded
  norm_num

/-- C6 counterexample: for a fetched item with external id `"ID1"`, the hashed
string is `normalize(url)|id1|unknown` — the external id is lowercased and the
third component is `"unknown"` — which differs from the claimed
`normalize(url)|ID1|` (id verbatim, empty third component). -/
theorem C6_hash_input_differs_from_claim :
    IngestLib.storeRawSignalHashInput
        { sourceUrl := ('h' :: 't' :: 't' :: 'p' :: 's' :: ':' :: '/' :: '/' :: 'e' :: 'x' :: '.' :: 'c' :: 'o' :: 'm' :: '/' :: 'a' :: [])
          externalId := some ('I' :: 'D' :: '1' :: [])
          title := none
          publishedAt := none } ≠
      IngestLib.specHashInputWithExternalId
        ('h' :: 't' :: 't' :: 'p' :: 's' :: ':' :: '/' :: '/' :: 'e' :: 'x' :: '.' :: 'c' :: 'o' :: 'm' :: '/' :: 'a' :: [])
        ('I' :: 'D' :: '1' :: []) := by
  decide

/-- C6 (amended): for every fetched item carrying a truthy external id the
stored content hash is SHA-256 of
`normalize(url) | lowercase(trim(externalId)) | "unknown"`, and for every item
without one it is SHA-256 of
`normalize(url) | lowercase(trim(title)) | YYYY-MM-DD-bucket-or-"unknown"`
(stated at the level of the hashed preimage string). -/
theorem C6_hash_input_format (url e : JSStr) (t : Option JSStr)
    (p : Option Int) (he : ¬ e.isEmpty) :
    IngestLib.storeRawSignalHashInput
        { sourceUrl := url, externalId := some e, title := t, publishedAt := p } =
      HashLib.normalizeUrl url ++ ['|'] ++ jsTrim (jsLower e) ++ ['|'] ++
        ('u' :: 'n' :: 'k' :: 'n' :: 'o' :: 'w' :: 'n' :: []) ∧
    IngestLib.storeRawSignalHashInput
        { sourceUrl := url, externalId := none, title := t, publishedAt := p } =
      HashLib.normalizeUrl url ++ ['|'] ++ jsTrim (jsLower (t.getD [])) ++ ['|'] ++
        (match p with
         | some ms => HashLib.dateBucketOfMs ms
         | none => ('u' :: 'n' :: 'k' :: 'n' :: 'o' :: 'w' :: 'n' :: [])) := by
  constructor
  · simp [IngestLib.storeRawSignalHashInput, IngestLib.hasExternalId,
      HashLib.generateContentHashInput, he]
  · simp [IngestLib.storeRawSignalHashInput, IngestLib.hasExternalId,
      HashLib.generateContentHashInput]

/-- C6 witness: the amended hash-input format at a concrete item with external
id `"ID1"`. -/
theorem C6_hash_input_format_witness :
    IngestLib.storeRawSignalHashInput
        { sourceUrl := ('h' :: 't' :: 't' :: 'p' :: 's' :: ':' :: '/' :: '/' :: 'e' :: 'x' :: '.' :: 'c' :: 'o' :: 'm' :: '/' :: 'a' :: [])
          externalId := some ('I' :: 'D' :: '1' :: [])
          title := none
          publishedAt := none } =
      HashLib.normalizeUrl ('h' :: 't' :: 't' :: 'p' :: 's' :: ':' :: '/' :: '/' :: 'e' :: 'x' :: '.' :: 'c' :: 'o' :: 'm' :: '/' :: 'a' :: []) ++
        ['|'] ++ jsTrim (jsLower ('I' :: 'D' :: '1' :: [])) ++ ['|'] ++
        ('u' :: 'n' :: 'k' :: 'n' :: 'o' :: 'w' :: 'n' :: []) :=
  (C6_hash_input_format _ ('I' :: 'D' :: '1' :: []) none none (by decide)).1

namespace RankLib

theorem scenario_uniqueDomains :
    uniqueDomainsCount scenarioCluster.signals = 3 := by decide

theorem scenario_countInWindow :
    countSignalsInWindow scenarioCluster.signals 60 10000000000 = 1 := by decide

theorem scenario_avgCredibility :
    getAverageCredibility scenarioCred scenarioCluster.signals = 0.9 := by
  simp only [getAverageCredibility, scenarioCred, scenarioCluster]
  norm_num

theorem scenario_maxCategoryWeight :
    ((scenarioCluster.categories.map CATEGORY_WEIGHTS).foldl max 1.0 : ℝ) = 1.0 := by
  simp [scenarioCluster, CATEGORY_WEIGHTS]

theorem scenario_score :
    (computeImportanceScore ⟨6, 24⟩ scenarioCred scenarioCluster
        10000000000).score = 10.35 + Real.log 2 * 3 := by
  simp only [computeImportanceScore, scenario_uniqueDomains,
    scenario_countInWindow, scenario_avgCredibility, scenario_maxCategoryWeight]
  norm_num [scenarioCluster, Real.exp_zero]
  ring

end RankLib

/-- C4: the importance score computed by the ranker equals the sum of the §4.7
components, the persisted integer is `round(score × 1000)`, and on the §8
scenario (3 domains all weight 0.9, categories `{PRODUCT_UPDATE}`, 1 signal in
the last hour, `lastSignalAt = now`, `manualBoost = 0`) the persisted
`importanceScore` is 12429. -/
theorem C4_importance_score :
    (∀ (env : RankLib.RankEnv) (cred : JSStr → Option ℝ)
       (cluster : RankLib.RankCluster) (nowMs : Int),
       (RankLib.computeImportanceScore env cred cluster nowMs).score =
         RankLib.specScoreOfComponents env cred cluster nowMs ∧
       (RankLib.computeImportanceScore env cred cluster nowMs).scoreMillis =
         round ((RankLib.computeImportanceScore env cred cluster nowMs).score * 1000)) ∧
    (RankLib.computeImportanceScore ⟨6, 24⟩ RankLib.scenarioCred
        RankLib.scenarioCluster 10000000000).scoreMillis = 12429 := by
  constructor
  · intro env cred cluster nowMs
    constructor
    · simp only [RankLib.computeImportanceScore, RankLib.specScoreOfComponents]
    · rfl
  · have hs := RankLib.scenario_score
    have hm : (RankLib.computeImportanceScore ⟨6, 24⟩ RankLib.scenarioCred
        RankLib.scenarioCluster 10000000000).scoreMillis =
        round (((10.35 : ℝ) + Real.log 2 * 3) * 1000) := by
      rw [← hs]; rfl
    rw [hm, round_eq, Int.floor_eq_iff]
    constructor
    · push_cast
      nlinarith [Real.log_two_gt_d9]
    · push_cast
      nlinarith [Real.log_two_lt_d9]

set_option maxRecDepth 40000 in
/-- C3 (code bug): for a signal whose LLM response parses and validates with
confidence 0.5 < 0.6, `normalizeSignal` produces a REJECTED output whose
reason reports the score and which carries the (truncated) LLM raw response —
but `updateSignalWithNormalization` persists the raw response only for
successful outputs, so the persisted row for this rejected signal has no
`llmRawResponse`, contradicting the claim that it is stored for audit. -/
theorem C3_rejected_raw_response_not_persisted :
    NormalizeLib.lowConfidenceOutput.ingestStatus =
      NormalizeLib.IngestStatus.REJECTED ∧
    NormalizeLib.lowConfidenceOutput.ingestReason =
      some "Low relevance to AI companions (confidence: 0.50)".toList ∧
    NormalizeLib.lowConfidenceOutput.llmRawResponse =
      some (HashLib.truncateText "raw-json-response".toList
        NormalizeLib.MAX_RAW_RESPONSE_LENGTH) ∧
    (NormalizeLib.updateSignalData NormalizeLib.lowConfidenceOutput).llmRawResponse =
      none := by
  refine ⟨by decide, by decide, by decide, by decide⟩



namespace SimilarityLib

theorem alistGet_eq_none_iff {α : Type} (m : List (JSStr × α)) (k : JSStr) :
    alistGet m k = none ↔ ∀ p ∈ m, p.1 ≠ k := by
  unfold alistGet
  cases hfind : List.find? (fun p => p.1 = k) m with
  | none =>
    simp only [Option.map_none']
    constructor
    · intro _ p hp hk
      have hnone := List.find?_eq_none.mp hfind p hp
      simp only [decide_eq_true_eq] at hnone
      exact hnone hk
    · intro _
      trivial
  | some q =>
    simp only [Option.map_some']
    constructor
    · intro h
      cases h
    · intro h
      have hq := List.find?_some hfind
      have hmem := List.mem_of_find?_eq_some hfind
      simp only [decide_eq_true_eq] at hq
      exact absurd hq (h q hmem)

theorem mem_keys_of_mem_computeTFIDF {tokens : List JSStr}
    {idf : List (JSStr × ℝ)} {p : JSStr × ℝ}
    (hp : p ∈ computeTFIDF tokens idf) :
    p.1 ∈ (countOcc tokens).map Prod.fst := by
  simp only [computeTFIDF, computeTF, List.map_map, List.mem_map] at hp
  obtain ⟨q, hq, rfl⟩ := hp
  exact List.mem_map_of_mem _ hq

theorem alistGet_computeTFIDF_eq_none {tokens : List JSStr}
    {idf : List (JSStr × ℝ)} {k : JSStr}
    (h : k ∉ (countOcc tokens).map Prod.fst) :
    alistGet (computeTFIDF tokens idf) k = none := by
  rw [alistGet_eq_none_iff]
  intro p hp hk
  exact h (hk ▸ mem_keys_of_mem_computeTFIDF hp)

theorem foldl_dot_const (v2 : List (JSStr × ℝ)) :
    ∀ (l : List (JSStr × ℝ)) (a : ℝ),
      (∀ p ∈ l, alistGet v2 p.1 = none) →
      l.foldl (fun acc p => acc + p.2 * ((alistGet v2 p.1).getD 0)) a = a := by
  intro l
  induction l with
  | nil => intro a _; rfl
  | cons p rest ih =>
    intro a h
    have hp := h p (List.mem_cons_self p rest)
    simp only [List.foldl_cons, hp, Option.getD_none, mul_zero, add_zero]
    exact ih a (fun q hq => h q (List.mem_cons_of_mem p hq))

theorem cosineSimilarity_eq_zero_of_disjoint (v1 v2 : List (JSStr × ℝ))
    (h : ∀ p ∈ v1, alistGet v2 p.1 = none) :
    cosineSimilarity v1 v2 = 0 := by
  unfold cosineSimilarity
  rw [foldl_dot_const v2 v1 0 h]
  dsimp only
  split
  · rfl
  · exact zero_div _

theorem platformOverlapBonus_nonneg (p1 p2 : List JSStr) :
    0 ≤ platformOverlapBonus p1 p2 := by
  unfold platformOverlapBonus
  split
  · exact le_refl 0
  · refine le_min ?_ (by norm_num)
    positivity

theorem fmsStep_eq_none_iff (thr sim : ℝ) (i : Nat) (best : Option (Nat × ℝ)) :
    fmsStep thr sim i best = none ↔ best = none ∧ sim < thr := by
  unfold fmsStep
  split
  · rename_i hge
    split
    · simp [not_lt.mpr hge]
    · split <;> simp [not_lt.mpr hge]
  · rename_i hge
    simp [lt_of_not_ge hge]

theorem fmsStep_thr (thr sim : ℝ) (i : Nat) (best : Option (Nat × ℝ))
    (hbest : ∀ b, best = some b → thr ≤ b.2) :
    ∀ b', fmsStep thr sim i best = some b' → thr ≤ b'.2 := by
  intro b' hb'
  unfold fmsStep at hb'
  split at hb'
  · rename_i hge
    split at hb'
    · cases hb'
      exact hge
    · rename_i b
      split at hb'
      · cases hb'
        exact hge
      · cases hb'
        exact hbest _ rfl
  · exact hbest b' hb'

theorem fmsStep_provenance (thr sim : ℝ) (i : Nat)
    (best : Option (Nat × ℝ)) (b' : Nat × ℝ)
    (hb' : fmsStep thr sim i best = some b') :
    b'.2 = sim ∨ best = some b' := by
  unfold fmsStep at hb'
  split at hb'
  · split at hb'
    · cases hb'
      exact Or.inl rfl
    · split at hb'
      · cases hb'
        exact Or.inl rfl
      · cases hb'
        exact Or.inr rfl
  · exact Or.inr hb'

theorem fmsStep_mono (thr sim : ℝ) (i : Nat) (best : Option (Nat × ℝ))
    (b' : Nat × ℝ) (hb' : fmsStep thr sim i best = some b') :
    (sim ≥ thr → sim ≤ b'.2) ∧ ∀ b0, best = some b0 → b0.2 ≤ b'.2 := by
  unfold fmsStep at hb'
  split at hb'
  · split at hb'
    · cases hb'
      exact ⟨fun _ => le_refl _, fun b0 hb0 => by cases hb0⟩
    · rename_i b
      split at hb'
      · rename_i hgt
        cases hb'
        exact ⟨fun _ => le_refl _, fun b0 hb0 => by cases hb0; exact le_of_lt hgt⟩
      · rename_i hgt
        cases hb'
        exact ⟨fun _ => le_of_not_gt hgt, fun b0 hb0 => by cases hb0; exact le_refl _⟩
  · rename_i hge
    cases hb'
    exact ⟨fun h => absurd h hge, fun b0 hb0 => by cases hb0; exact le_refl _⟩

theorem fmsGo_eq_none_iff (qv idf : List (JSStr × ℝ)) (thr : ℝ)
    (cands : List (List JSStr)) : ∀ (i : Nat) (best : Option (Nat × ℝ)),
    fmsGo qv idf thr cands i best = none ↔
      best = none ∧
        ∀ c ∈ cands, cosineSimilarity qv (computeTFIDF c idf) < thr := by
  induction cands with
  | nil =>
    intro i best
    simp [fmsGo]
  | cons c rest ih =>
    intro i best
    rw [fmsGo, ih]
    rw [fmsStep_eq_none_iff]
    constructor
    · rintro ⟨⟨h1, h2⟩, h3⟩
      refine ⟨h1, ?_⟩
      intro x hx
      rcases List.mem_cons.mp hx with rfl | hx'
      · exact h2
      · exact h3 x hx'
    · rintro ⟨h1, h2⟩
      exact ⟨⟨h1, h2 c (List.mem_cons_self c rest)⟩,
        fun x hx => h2 x (List.mem_cons_of_mem c hx)⟩

theorem fmsGo_some_spec (qv idf : List (JSStr × ℝ)) (thr : ℝ)
    (cands : List (List JSStr)) : ∀ (i : Nat) (best : Option (Nat × ℝ))
    (_ : ∀ b, best = some b → thr ≤ b.2) (j : Nat) (s : ℝ),
    fmsGo qv idf thr cands i best = some (j, s) →
      thr ≤ s ∧
      (best = some (j, s) ∨
        ∃ c ∈ cands, cosineSimilarity qv (computeTFIDF c idf) = s) ∧
      (∀ c ∈ cands, cosineSimilarity qv (computeTFIDF c idf) ≤ s) ∧
      (∀ b, best = some b → b.2 ≤ s) := by
  induction cands with
  | nil =>
    intro i best hbest j s hres
    rw [fmsGo] at hres
    refine ⟨hbest _ hres, Or.inl hres, ?_, ?_⟩
    · intro x hx; cases hx
    · intro b hb
      rw [hres] at hb
      cases hb
      exact le_refl s
  | cons c rest ih =>
    intro i best hbest j s hres
    rw [fmsGo] at hres
    rcases hb' : fmsStep thr (cosineSimilarity qv (computeTFIDF c idf)) i best
      with _ | b'
    · -- the accumulator is still empty after this candidate
      rw [hb'] at hres
      obtain ⟨hnone, hlt⟩ := (fmsStep_eq_none_iff _ _ _ _).mp hb'
      obtain ⟨hthr, hmid, hbound, -⟩ :=
        ih (i + 1) none (by intro b hb; cases hb) j s hres
      refine ⟨hthr, ?_, ?_, ?_⟩
      · rcases hmid with h | ⟨c', hc', hcs⟩
        · cases h
        · exact Or.inr ⟨c', List.mem_cons_of_mem c hc', hcs⟩
      · intro x hx
        rcases List.mem_cons.mp hx with rfl | hx'
        · exact le_trans (le_of_lt hlt) hthr
        · exact hbound x hx'
      · intro b hb
        rw [hnone] at hb
        cases hb
    · rw [hb'] at hres
      have hthrb' := fmsStep_thr thr _ i best hbest b' hb'
      obtain ⟨hsimle, hmono⟩ := fmsStep_mono thr _ i best b' hb'
      obtain ⟨hthr, hmid, hbound, haccb⟩ :=
        ih (i + 1) (some b') (by intro b hb; cases hb; exact hthrb') j s hres
      have hb'le : b'.2 ≤ s := haccb b' rfl
      refine ⟨hthr, ?_, ?_, ?_⟩
      · rcases hmid with h | ⟨c', hc', hcs⟩
        · cases h
          rcases fmsStep_provenance thr _ i best (j, s) hb' with hv | hbb
          · exact Or.inr ⟨c, List.mem_cons_self c rest, hv.symm⟩
          · exact Or.inl hbb
        · exact Or.inr ⟨c', List.mem_cons_of_mem c hc', hcs⟩
      · intro x hx
        rcases List.mem_cons.mp hx with rfl | hx'
        · by_cases hge : cosineSimilarity qv (computeTFIDF x idf) ≥ thr
          · exact le_trans (hsimle hge) hb'le
          · exact le_trans (le_of_lt (lt_of_not_ge hge)) hthr
        · exact hbound x hx'
      · intro b hb
        exact le_trans (hmono b hb) hb'le

theorem findMostSimilar_none_iff (q : List JSStr) (cts : List (List JSStr))
    (thr : ℝ) :
    findMostSimilar q cts thr = none ↔
      ∀ ct ∈ cts,
        cosineSimilarity (computeTFIDF q (computeIDF (cts ++ [q])))
          (computeTFIDF ct (computeIDF (cts ++ [q]))) < thr := by
  unfold findMostSimilar
  by_cases he : cts.isEmpty
  · have : cts = [] := List.isEmpty_iff.mp he
    subst this
    simp
  · rw [if_neg he, fmsGo_eq_none_iff]
    simp

theorem findMostSimilar_some_spec (q : List JSStr) (cts : List (List JSStr))
    (thr : ℝ) (j : Nat) (s : ℝ)
    (hres : findMostSimilar q cts thr = some (j, s)) :
    thr ≤ s ∧
    (∃ ct ∈ cts,
      cosineSimilarity (computeTFIDF q (computeIDF (cts ++ [q])))
        (computeTFIDF ct (computeIDF (cts ++ [q]))) = s) ∧
    (∀ ct ∈ cts,
      cosineSimilarity (computeTFIDF q (computeIDF (cts ++ [q])))
        (computeTFIDF ct (computeIDF (cts ++ [q]))) ≤ s) := by
  unfold findMostSimilar at hres
  by_cases he : cts.isEmpty
  · rw [if_pos he] at hres
    cases hres
  · rw [if_neg he] at hres
    obtain ⟨hthr, hmid, hbound, -⟩ :=
      fmsGo_some_spec _ _ thr cts 0 none (by intro b hb; cases hb) j s hres
    rcases hmid with h | h
    · cases h
    · exact ⟨hthr, h, hbound⟩

theorem findSimilarClusterDecision_eq_map (sig : JSStr)
    (cands : List ClusterCandidateM) (plats : List JSStr) (thr : ℝ) :
    findSimilarClusterDecision sig cands plats thr =
      (findMostSimilar (tokenize sig)
        (cands.map (fun c => tokenize c.searchText)) thr).map Prod.fst := by
  unfold findSimilarClusterDecision
  by_cases he : cands.isEmpty
  · have : cands = [] := List.isEmpty_iff.mp he
    subst this
    simp [findMostSimilar]
  · rw [if_neg he]
    dsimp only
    rcases hres : findMostSimilar (tokenize sig)
        (cands.map (fun c => tokenize c.searchText)) thr with _ | ⟨i, s⟩
    · rw [hres]
      rfl
    · obtain ⟨hthr, -, -⟩ := findMostSimilar_some_spec _ _ _ _ _ hres
      have hb := platformOverlapBonus_nonneg plats
        ((cands.get? i).getD ⟨[], []⟩).platformSlugs
      have hnot : ¬ (s + platformOverlapBonus plats
          ((cands.get? i).getD ⟨[], []⟩).platformSlugs < thr) := by
        push_neg
        linarith
      rw [hres]
      dsimp only
      rw [if_neg hnot]
      rfl

end SimilarityLib

namespace SimilarityLib

theorem c2_tokenize_signal :
    tokenize c2SignalText = ["alpha".toList, "bravo".toList] := by decide

theorem c2_tokenize_candidate :
    tokenize c2CandidateText = ["delta".toList, "echoes".toList] := by decide

theorem c2_cosine_zero :
    cosineSimilarity
      (computeTFIDF ["alpha".toList, "bravo".toList]
        (computeIDF ([["delta".toList, "echoes".toList]] ++
          [["alpha".toList, "bravo".toList]])))
      (computeTFIDF ["delta".toList, "echoes".toList]
        (computeIDF ([["delta".toList, "echoes".toList]] ++
          [["alpha".toList, "bravo".toList]]))) = 0 := by
  apply cosineSimilarity_eq_zero_of_disjoint
  intro p hp
  have hmem := mem_keys_of_mem_computeTFIDF hp
  rw [show (countOcc ["alpha".toList, "bravo".toList]).map Prod.fst =
      ["alpha".toList, "bravo".toList] from by decide] at hmem
  apply alistGet_computeTFIDF_eq_none
  rw [show (countOcc ["delta".toList, "echoes".toList]).map Prod.fst =
      ["delta".toList, "echoes".toList] from by decide]
  intro hc
  simp only [List.mem_cons, List.not_mem_nil, or_false] at hmem hc
  rcases hmem with h | h <;> rcases hc with h2 | h2 <;> rw [h] at h2 <;>
    exact absurd h2 (by decide)

theorem c2_fms_none :
    findMostSimilar ["alpha".toList, "bravo".toList]
      [["delta".toList, "echoes".toList]] (0.4 : ℝ) = none := by
  rw [findMostSimilar_none_iff]
  intro ct hct
  simp only [List.mem_cons, List.not_mem_nil, or_false] at hct
  subst hct
  rw [c2_cosine_zero]
  norm_num

theorem c2_bonus :
    platformOverlapBonus c2Platforms c2Platforms = 0.4 := by
  unfold platformOverlapBonus
  rw [if_neg (by decide)]
  have hover : ((firstDedup (c2Platforms.map jsLower)).filter
      (fun p => (c2Platforms.map jsLower).contains p)).length = 2 := by decide
  dsimp only
  rw [hover]
  norm_num

theorem c2_map_candidates :
    ([c2Candidate].map (fun c => tokenize c.searchText)) =
      [["delta".toList, "echoes".toList]] := by
  simp [c2Candidate, c2_tokenize_candidate]

theorem c2_decision_none :
    findSimilarClusterDecision c2SignalText [c2Candidate] c2Platforms (0.4 : ℝ) =
      none := by
  rw [findSimilarClusterDecision_eq_map, c2_map_candidates, c2_tokenize_signal,
    c2_fms_none]
  rfl

theorem c2_spec_some :
    specPhase2Decision c2SignalText [c2Candidate] c2Platforms (0.4 : ℝ) =
      some 0 := by
  unfold specPhase2Decision
  rw [if_neg (by decide)]
  dsimp only
  simp only [List.map_cons, List.map_nil, c2_tokenize_signal]
  simp only [c2Candidate]
  simp only [c2_tokenize_candidate]
  rw [c2_cosine_zero, c2_bonus]
  rw [show (0 : ℝ) + 0.4 = 0.4 from by norm_num]
  rw [show argmaxGo [(0.4 : ℝ)] 0 none = some (0, 0.4) from by
    simp [argmaxGo]]
  dsimp only
  rw [if_pos (by norm_num : (0.4 : ℝ) ≤ 0.4)]

end SimilarityLib

/-- C2 counterexample: a single Phase-1 candidate whose tokens are disjoint
from the signal's (raw cosine 0 < 0.4) but which shares the signal's two
platforms (bonus 0.4, adjusted score 0.4 ≥ 0.4).  The claim says the signal
is attached to this candidate; the code creates a new cluster instead,
because `findMostSimilar` applies the threshold to the raw cosine before the
bonus is added. -/
theorem C2_adjusted_score_claim_fails :
    SimilarityLib.findSimilarClusterDecision SimilarityLib.c2SignalText
      [SimilarityLib.c2Candidate] SimilarityLib.c2Platforms (0.4 : ℝ) = none ∧
    SimilarityLib.specPhase2Decision SimilarityLib.c2SignalText
      [SimilarityLib.c2Candidate] SimilarityLib.c2Platforms (0.4 : ℝ) = some 0 :=
  ⟨SimilarityLib.c2_decision_none, SimilarityLib.c2_spec_some⟩

/-- C2 (amended): Phase 2 attaches the signal to the candidate selected by
`findMostSimilar` — a candidate of maximal raw TF-IDF cosine — if and only if
some candidate's raw cosine reaches the threshold; the platform-overlap bonus
is computed only for that single winner and, being nonnegative, the
subsequent adjusted-score check never changes the decision. -/
theorem C2_phase2_decision_characterization (sig : JSStr)
    (cands : List SimilarityLib.ClusterCandidateM) (plats : List JSStr)
    (thr : ℝ) :
    SimilarityLib.findSimilarClusterDecision sig cands plats thr =
      (SimilarityLib.findMostSimilar (SimilarityLib.tokenize sig)
        (cands.map (fun c => SimilarityLib.tokenize c.searchText)) thr).map
        Prod.fst ∧
    (SimilarityLib.findMostSimilar (SimilarityLib.tokenize sig)
        (cands.map (fun c => SimilarityLib.tokenize c.searchText)) thr =
        none ↔
      ∀ ct ∈ cands.map (fun c => SimilarityLib.tokenize c.searchText),
        SimilarityLib.cosineSimilarity
          (SimilarityLib.computeTFIDF (SimilarityLib.tokenize sig)
            (SimilarityLib.computeIDF
              (cands.map (fun c => SimilarityLib.tokenize c.searchText) ++
                [SimilarityLib.tokenize sig])))
          (SimilarityLib.computeTFIDF ct
            (SimilarityLib.computeIDF
              (cands.map (fun c => SimilarityLib.tokenize c.searchText) ++
                [SimilarityLib.tokenize sig]))) < thr) ∧
    (∀ (j : Nat) (s : ℝ),
      SimilarityLib.findMostSimilar (SimilarityLib.tokenize sig)
        (cands.map (fun c => SimilarityLib.tokenize c.searchText)) thr =
        some (j, s) →
      thr ≤ s ∧
      (∃ ct ∈ cands.map (fun c => SimilarityLib.tokenize c.searchText),
        SimilarityLib.cosineSimilarity
          (SimilarityLib.computeTFIDF (SimilarityLib.tokenize sig)
            (SimilarityLib.computeIDF
              (cands.map (fun c => SimilarityLib.tokenize c.searchText) ++
                [SimilarityLib.tokenize sig])))
          (SimilarityLib.computeTFIDF ct
            (SimilarityLib.computeIDF
              (cands.map (fun c => SimilarityLib.tokenize c.searchText) ++
                [SimilarityLib.tokenize sig]))) = s) ∧
      (∀ ct ∈ cands.map (fun c => SimilarityLib.tokenize c.searchText),
        SimilarityLib.cosineSimilarity
          (SimilarityLib.computeTFIDF (SimilarityLib.tokenize sig)
            (SimilarityLib.computeIDF
              (cands.map (fun c => SimilarityLib.tokenize c.searchText) ++
                [SimilarityLib.tokenize sig])))
          (SimilarityLib.computeTFIDF ct
            (SimilarityLib.computeIDF
              (cands.map (fun c => SimilarityLib.tokenize c.searchText) ++
                [SimilarityLib.tokenize sig]))) ≤ s)) :=
  ⟨SimilarityLib.findSimilarClusterDecision_eq_map sig cands plats thr,
   SimilarityLib.findMostSimilar_none_iff _ _ thr,
   fun j s h => SimilarityLib.findMostSimilar_some_spec _ _ thr j s h⟩

/-- C2 witness: the amended characterization applied at the concrete C2
scenario input. -/
theorem C2_phase2_decision_characterization_witness :
    SimilarityLib.findSimilarClusterDecision SimilarityLib.c2SignalText
      [SimilarityLib.c2Candidate] SimilarityLib.c2Platforms (0.4 : ℝ) =
      (SimilarityLib.findMostSimilar
        (SimilarityLib.tokenize SimilarityLib.c2SignalText)
        ([SimilarityLib.c2Candidate].map
          (fun c => SimilarityLib.tokenize c.searchText)) (0.4 : ℝ)).map
        Prod.fst :=
  (C2_phase2_decision_characterization SimilarityLib.c2SignalText
    [SimilarityLib.c2Candidate] SimilarityLib.c2Platforms (0.4 : ℝ)).1

namespace FeedLib

theorem buildCursorWhere_iff (c r : ClusterRow) :
    buildCursorWhere c r = true ↔ rowKey r < rowKey c := by
  unfold buildCursorWhere rowKey
  simp only [Bool.or_eq_true, Bool.and_eq_true, decide_eq_true_eq, beq_iff_eq,
    Prod.Lex.lt_iff]
  tauto

theorem filter_after_middle : ∀ (l1 : List ClusterRow) (c : ClusterRow)
    (l2 : List ClusterRow),
    List.Pairwise (fun a b => rowKey b < rowKey a) (l1 ++ c :: l2) →
    (l1 ++ c :: l2).filter (fun r => buildCursorWhere c r) = l2 := by
  intro l1
  induction l1 with
  | nil =>
    intro c l2 hp
    rw [List.nil_append] at hp ⊢
    rw [List.filter_cons]
    have hcc : buildCursorWhere c c = false := by
      rw [Bool.eq_false_iff]
      intro h
      exact absurd ((buildCursorWhere_iff c c).mp h) (lt_irrefl _)
    rw [hcc]
    simp only [Bool.false_eq_true, if_false]
    apply List.filter_eq_self.mpr
    intro r hr
    exact (buildCursorWhere_iff c r).mpr ((List.pairwise_cons.mp hp).1 r hr)
  | cons a l1 ih =>
    intro c l2 hp
    rw [List.cons_append] at hp ⊢
    rw [List.filter_cons]
    obtain ⟨ha, htail⟩ := List.pairwise_cons.mp hp
    have hc : rowKey c < rowKey a := by
      exact ha c (by simp)
    have hac : buildCursorWhere c a = false := by
      rw [Bool.eq_false_iff]
      intro h
      exact absurd (lt_trans ((buildCursorWhere_iff c a).mp h) hc) (lt_irrefl _)
    rw [hac]
    simp only [Bool.false_eq_true, if_false]
    exact ih c l2 htail

theorem page_split (l2 : List ClusterRow) (limit : Nat) (h1 : 1 ≤ limit)
    (hlen : limit < l2.length) :
    ∃ (c' : ClusterRow),
      (l2.take limit).getLast? = some c' ∧
      l2 = (l2.take limit).dropLast ++ c' :: l2.drop limit := by
  have hne : l2.take limit ≠ [] := by
    apply List.ne_nil_of_length_pos
    rw [List.length_take]
    omega
  refine ⟨(l2.take limit).getLast hne, List.getLast?_eq_getLast _ hne, ?_⟩
  calc l2 = l2.take limit ++ l2.drop limit := (List.take_append_drop limit l2).symm
    _ = ((l2.take limit).dropLast ++ [(l2.take limit).getLast hne]) ++
          l2.drop limit :=
        congrArg (fun x => x ++ l2.drop limit)
          (List.dropLast_append_getLast hne).symm
    _ = (l2.take limit).dropLast ++ (l2.take limit).getLast hne ::
          l2.drop limit := by
        rw [List.append_assoc, List.singleton_append]

theorem walk_from_cursor : ∀ (fuel limit : Nat) (l1 : List ClusterRow)
    (c : ClusterRow) (l2 : List ClusterRow),
    1 ≤ limit →
    sortedSnapshot (l1 ++ c :: l2) →
    l2.length ≤ fuel →
    walk (l1 ++ c :: l2) limit fuel (some c) = l2 := by
  intro fuel
  induction fuel with
  | zero =>
    intro limit l1 c l2 _ _ hlen
    have : l2 = [] := List.eq_nil_of_length_eq_zero (by omega)
    rw [this, walk]
  | succ fuel ih =>
    intro limit l1 c l2 hlim hsort hlen
    rw [walk]
    have hfil : (l1 ++ c :: l2).filter (fun r => buildCursorWhere c r) = l2 :=
      filter_after_middle l1 c l2 hsort
    simp only [getPage, hfil]
    by_cases hm : limit < (l2.take (limit + 1)).length
    · have hlen2 : limit < l2.length := by
        rw [List.length_take] at hm
        omega
      obtain ⟨c', hlast, hsplit⟩ := page_split l2 limit hlim hlen2
      have htt : (l2.take (limit + 1)).take limit = l2.take limit := by
        rw [List.take_take]
        congr 1
        omega
      simp only [decide_eq_true hm, if_true, htt, hlast]
      have hL : l1 ++ c :: l2 =
          (l1 ++ c :: (l2.take limit).dropLast) ++ c' :: l2.drop limit := by
        conv_lhs => rw [hsplit]
        simp [List.append_assoc]
      have hsort' : sortedSnapshot
          ((l1 ++ c :: (l2.take limit).dropLast) ++ c' :: l2.drop limit) := by
        rw [← hL]
        exact hsort
      have hdroplen : (l2.drop limit).length ≤ fuel := by
        rw [List.length_drop]
        omega
      rw [hL, ih limit _ c' (l2.drop limit) hlim hsort' hdroplen]
      rw [List.take_append_drop]
    · have hle : l2.length ≤ limit := by
        rw [List.length_take] at hm
        omega
      have htake : l2.take (limit + 1) = l2 := List.take_of_length_le (by omega)
      have hm2 : ¬ limit < l2.length := by omega
      simp [htake, hm2]

theorem walk_none_eq (fuel limit : Nat) (L : List ClusterRow)
    (hlim : 1 ≤ limit) (hsort : sortedSnapshot L) (hlen : L.length ≤ fuel) :
    walk L limit fuel none = L := by
  cases fuel with
  | zero =>
    have : L = [] := List.eq_nil_of_length_eq_zero (by omega)
    rw [this, walk]
  | succ fuel =>
    rw [walk]
    simp only [getPage]
    by_cases hm : limit < (L.take (limit + 1)).length
    · have hlen2 : limit < L.length := by
        rw [List.length_take] at hm
        omega
      obtain ⟨c', hlast, hsplit⟩ := page_split L limit hlim hlen2
      have htt : (L.take (limit + 1)).take limit = L.take limit := by
        rw [List.take_take]
        congr 1
        omega
      simp only [decide_eq_true hm, if_true, htt, hlast]
      have hw := walk_from_cursor fuel limit ((L.take limit).dropLast) c'
        (L.drop limit) hlim (hsplit ▸ hsort)
        (by rw [List.length_drop]; omega)
      rw [← hsplit] at hw
      rw [hw, List.take_append_drop]
    · have hle : L.length ≤ limit := by
        rw [List.length_take] at hm
        omega
      have htake : L.take (limit + 1) = L := List.take_of_length_le (by omega)
      have hm2 : ¬ limit < L.length := by omega
      simp [htake, hm2]

end FeedLib

/-- C1: the keyset predicate built from a cursor selects exactly the rows
strictly after the cursor's row in the feed order (`importanceScore DESC,
lastSignalAt DESC, id DESC`), and a paging walk with successive cursors over
a fixed sorted snapshot returns exactly the snapshot in order — no duplicate
row, no skipped row. -/
theorem C1_keyset_pagination :
    (∀ c r : FeedLib.ClusterRow,
      FeedLib.buildCursorWhere c r = true ↔
        FeedLib.rowKey r < FeedLib.rowKey c) ∧
    (∀ (fuel limit : Nat) (L : List FeedLib.ClusterRow),
      1 ≤ limit → FeedLib.sortedSnapshot L → L.length ≤ fuel →
      FeedLib.walk L limit fuel none = L) :=
  ⟨FeedLib.buildCursorWhere_iff,
   fun fuel limit L h1 h2 h3 => FeedLib.walk_none_eq fuel limit L h1 h2 h3⟩

/-- C1 witness: a full paging walk with page size 1 over a concrete
three-row snapshot returns the snapshot. -/
theorem C1_keyset_pagination_witness :
    FeedLib.walk
      [⟨3, 5, ['c']⟩, ⟨3, 5, ['b']⟩, ⟨2, 9, ['a']⟩] 1 3 none =
      [⟨3, 5, ['c']⟩, ⟨3, 5, ['b']⟩, ⟨2, 9, ['a']⟩] :=
  C1_keyset_pagination.2 3 1 _ (by decide) (by decide) (by decide)

namespace CursorLib

theorem b64Index_b64Char : ∀ n < 64, b64Index (b64Char n) = some n := by
  decide

theorem b64_roundtrip : ∀ (bytes : List Nat), (∀ b ∈ bytes, b < 256) →
    b64urlDecode (b64urlEncode bytes) = bytes
  | [], _ => rfl
  | [b0], h => by
    have h0 : b0 < 256 := h b0 (by simp)
    unfold b64urlDecode b64urlEncode
    rw [b64EncodeGroups]
    rw [List.filterMap_cons, List.filterMap_cons, List.filterMap_nil]
    rw [b64Index_b64Char _ (by omega), b64Index_b64Char _ (by omega)]
    rw [b64DecodeGroups]
    congr 1
    omega
  | [b0, b1], h => by
    have h0 : b0 < 256 := h b0 (by simp)
    have h1 : b1 < 256 := h b1 (by simp)
    unfold b64urlDecode b64urlEncode
    rw [b64EncodeGroups]
    rw [List.filterMap_cons, List.filterMap_cons, List.filterMap_cons,
      List.filterMap_nil]
    rw [b64Index_b64Char _ (by omega), b64Index_b64Char _ (by omega),
      b64Index_b64Char _ (by omega)]
    rw [b64DecodeGroups]
    congr 1
    · omega
    · congr 1
      omega
  | b0 :: b1 :: b2 :: rest, h => by
    have h0 : b0 < 256 := h b0 (by simp)
    have h1 : b1 < 256 := h b1 (by simp)
    have h2 : b2 < 256 := h b2 (by simp)
    have ih := b64_roundtrip rest (fun b hb => h b (by simp [hb]))
    unfold b64urlDecode b64urlEncode at ih ⊢
    rw [b64EncodeGroups]
    rw [List.filterMap_cons, List.filterMap_cons, List.filterMap_cons,
      List.filterMap_cons]
    rw [b64Index_b64Char _ (by omega), b64Index_b64Char _ (by omega),
      b64Index_b64Char _ (by omega), b64Index_b64Char _ (by omega)]
    rw [b64DecodeGroups]
    rw [ih]
    congr 1
    · omega
    · congr 1
      · omega
      · congr 1
        omega

end CursorLib

namespace CursorLib

theorem char_valid_nat (c : Char) :
    c.toNat < 0xD800 ∨ (0xDFFF < c.toNat ∧ c.toNat < 0x110000) := c.valid

theorem utf8EncodeChar_lt_256 (c : Char) : ∀ b ∈ utf8EncodeChar c, b < 256 := by
  intro b hb
  have hv := char_valid_nat c
  unfold utf8EncodeChar at hb
  dsimp only at hb
  split at hb <;> [skip; split at hb] <;> [skip; skip; split at hb] <;>
    simp only [List.mem_cons, List.not_mem_nil, or_false] at hb <;>
    rcases hb with rfl | rfl | rfl | rfl | hb <;> omega

theorem utf8Encode_lt_256 (s : List Char) : ∀ b ∈ utf8Encode s, b < 256 := by
  intro b hb
  rw [utf8Encode, List.mem_flatMap] at hb
  obtain ⟨c, -, hbc⟩ := hb
  exact utf8EncodeChar_lt_256 c b hbc

theorem length_le_utf8Encode (s : List Char) :
    s.length ≤ (utf8Encode s).length := by
  induction s with
  | nil => simp [utf8Encode]
  | cons c s ih =>
    rw [utf8Encode, List.flatMap_cons, List.length_append, List.length_cons]
    rw [utf8Encode] at ih
    have : 1 ≤ (utf8EncodeChar c).length := by
      unfold utf8EncodeChar
      dsimp only
      split <;> [skip; split] <;> [skip; skip; split] <;> simp
    omega

end CursorLib

namespace CursorLib

theorem decodeAux_one (f b : Nat) (rest : List Nat) (h : b < 0x80) :
    utf8DecodeAux (f + 1) (b :: rest) = Char.ofNat b :: utf8DecodeAux f rest := by
  rw [utf8DecodeAux.eq_def]
  dsimp only
  rw [if_pos h]

theorem decodeAux_two (f b b1 : Nat) (rest : List Nat) (h1 : ¬ b < 0x80)
    (h2 : (0xC2 ≤ b && b ≤ 0xDF) = true) (h3 : isCont b1 = true) :
    utf8DecodeAux (f + 1) (b :: b1 :: rest) =
      Char.ofNat ((b - 0xC0) * 64 + (b1 - 0x80)) :: utf8DecodeAux f rest := by
  rw [utf8DecodeAux.eq_def]
  dsimp only
  rw [if_neg h1, if_pos h2, if_pos h3]

theorem decodeAux_three (f b b1 b2 : Nat) (rest : List Nat) (h1 : ¬ b < 0x80)
    (h2 : ¬ ((0xC2 ≤ b && b ≤ 0xDF) = true))
    (h3 : (0xE0 ≤ b && b ≤ 0xEF) = true)
    (h4 : (cont3Ok b b1 && isCont b2) = true) :
    utf8DecodeAux (f + 1) (b :: b1 :: b2 :: rest) =
      Char.ofNat ((b - 0xE0) * 4096 + (b1 - 0x80) * 64 + (b2 - 0x80)) ::
        utf8DecodeAux f rest := by
  rw [utf8DecodeAux.eq_def]
  dsimp only
  rw [if_neg h1, if_neg h2, if_pos h3, if_pos h4]

theorem decodeAux_four (f b b1 b2 b3 : Nat) (rest : List Nat)
    (h1 : ¬ b < 0x80) (h2 : ¬ ((0xC2 ≤ b && b ≤ 0xDF) = true))
    (h3 : ¬ ((0xE0 ≤ b && b ≤ 0xEF) = true))
    (h4 : (0xF0 ≤ b && b ≤ 0xF4) = true)
    (h5 : (cont4Ok b b1 && isCont b2 && isCont b3) = true) :
    utf8DecodeAux (f + 1) (b :: b1 :: b2 :: b3 :: rest) =
      Char.ofNat ((b - 0xF0) * 262144 + (b1 - 0x80) * 4096 +
        (b2 - 0x80) * 64 + (b3 - 0x80)) :: utf8DecodeAux f rest := by
  rw [utf8DecodeAux.eq_def]
  dsimp only
  rw [if_neg h1, if_neg h2, if_neg h3, if_pos h4, if_pos h5]

theorem utf8_roundtrip_aux : ∀ (s : List Char) (fuel : Nat),
    s.length ≤ fuel → utf8DecodeAux fuel (utf8Encode s) = s := by
  intro s
  induction s with
  | nil =>
    intro fuel _
    rw [utf8Encode, List.flatMap_nil]
    cases fuel with
    | zero => rfl
    | succ f => rfl
  | cons c s ih =>
    intro fuel hlen
    rw [List.length_cons] at hlen
    cases fuel with
    | zero => omega
    | succ f =>
    have hs : s.length ≤ f := by omega
    have hv := char_valid_nat c
    rw [utf8Encode, List.flatMap_cons]
    have ihf := ih f hs
    rw [utf8Encode] at ihf
    by_cases hr1 : c.toNat < 0x80
    · rw [show utf8EncodeChar c = [c.toNat] from by
        unfold utf8EncodeChar
        dsimp only
        rw [if_pos hr1]]
      simp only [List.cons_append, List.nil_append]
      rw [decodeAux_one f _ _ hr1, ihf, Char.ofNat_toNat]
    · by_cases hr2 : c.toNat < 0x800
      · rw [show utf8EncodeChar c =
            [0xC0 + c.toNat / 64, 0x80 + c.toNat % 64] from by
          unfold utf8EncodeChar
          dsimp only
          rw [if_neg hr1, if_pos hr2]]
        simp only [List.cons_append, List.nil_append]
        rw [decodeAux_two f _ _ _ (by omega)
          (by simp only [Bool.and_eq_true, decide_eq_true_eq]; omega)
          (by simp only [isCont, Bool.and_eq_true, decide_eq_true_eq]; omega)]
        rw [ihf, show (0xC0 + c.toNat / 64 - 0xC0) * 64 +
          (0x80 + c.toNat % 64 - 0x80) = c.toNat from by omega,
          Char.ofNat_toNat]
      · by_cases hr3 : c.toNat < 0x10000
        · rw [show utf8EncodeChar c =
              [0xE0 + c.toNat / 4096, 0x80 + c.toNat / 64 % 64,
                0x80 + c.toNat % 64] from by
            unfold utf8EncodeChar
            dsimp only
            rw [if_neg hr1, if_neg hr2, if_pos hr3]]
          simp only [List.cons_append, List.nil_append]
          rw [decodeAux_three f _ _ _ _ (by omega)
            (by simp only [Bool.and_eq_true, decide_eq_true_eq]; omega)
            (by simp only [Bool.and_eq_true, decide_eq_true_eq]; omega)
            (by
              simp only [cont3Ok, isCont, Bool.and_eq_true, Bool.or_eq_true,
                decide_eq_true_eq]
              omega)]
          rw [ihf, show (0xE0 + c.toNat / 4096 - 0xE0) * 4096 +
            (0x80 + c.toNat / 64 % 64 - 0x80) * 64 +
            (0x80 + c.toNat % 64 - 0x80) = c.toNat from by omega,
            Char.ofNat_toNat]
        · rw [show utf8EncodeChar c =
              [0xF0 + c.toNat / 262144, 0x80 + c.toNat / 4096 % 64,
                0x80 + c.toNat / 64 % 64, 0x80 + c.toNat % 64] from by
            unfold utf8EncodeChar
            dsimp only
            rw [if_neg hr1, if_neg hr2, if_neg hr3]]
          simp only [List.cons_append, List.nil_append]
          rw [decodeAux_four f _ _ _ _ _ (by omega)
            (by simp only [Bool.and_eq_true, decide_eq_true_eq]; omega)
            (by simp only [Bool.and_eq_true, decide_eq_true_eq]; omega)
            (by simp only [Bool.and_eq_true, decide_eq_true_eq]; omega)
            (by
              simp only [cont4Ok, isCont, Bool.and_eq_true, Bool.or_eq_true,
                decide_eq_true_eq]
              omega)]
          rw [ihf, show (0xF0 + c.toNat / 262144 - 0xF0) * 262144 +
            (0x80 + c.toNat / 4096 % 64 - 0x80) * 4096 +
            (0x80 + c.toNat / 64 % 64 - 0x80) * 64 +
            (0x80 + c.toNat % 64 - 0x80) = c.toNat from by omega,
            Char.ofNat_toNat]

theorem utf8_roundtrip (s : List Char) :
    utf8DecodeLossy (utf8Encode s) = s := by
  rw [utf8DecodeLossy]
  exact utf8_roundtrip_aux s _ (length_le_utf8Encode s)

end CursorLib

namespace HashLib

theorem digitChar_toNat : ∀ d, d < 10 → (Char.ofNat (48 + d)).toNat = 48 + d := by decide

theorem digitChar_isDigit : ∀ d, d < 10 → (Char.ofNat (48 + d)).isDigit = true := by decide

theorem natDecimalAux_cons : ∀ (fuel : Nat), 0 < fuel → ∀ (n : Nat),
    ∃ d cs, d < 10 ∧ natDecimalAux fuel n = Char.ofNat (48 + d) :: cs := by
  intro fuel
  induction fuel with
  | zero => intro h; omega
  | succ f ih =>
    intro _ n
    rw [natDecimalAux]
    by_cases hn : n < 10
    · exact ⟨n, [], hn, by rw [if_pos hn]⟩
    · rw [if_neg hn]
      cases f with
      | zero =>
        refine ⟨n % 10, [], by omega, ?_⟩
        rw [natDecimalAux]
        rfl
      | succ f' =>
        obtain ⟨d, cs, hd, hcs⟩ := ih (by omega) (n / 10)
        exact ⟨d, cs ++ [Char.ofNat (48 + n % 10)], hd, by rw [hcs]; rfl⟩

theorem natDecimalAux_isDigit : ∀ (fuel n : Nat) (c : Char),
    c ∈ natDecimalAux fuel n → c.isDigit = true := by
  intro fuel
  induction fuel with
  | zero => intro n c hc; simp [natDecimalAux] at hc
  | succ f ih =>
    intro n c hc
    rw [natDecimalAux] at hc
    by_cases hn : n < 10
    · rw [if_pos hn] at hc
      simp only [List.mem_singleton] at hc
      subst hc
      exact digitChar_isDigit n hn
    · rw [if_neg hn] at hc
      simp only [List.mem_append, List.mem_singleton] at hc
      rcases hc with hc | hc
      · exact ih _ c hc
      · subst hc
        exact digitChar_isDigit _ (by omega)

theorem natDecimalAux_foldl : ∀ (fuel n acc : Nat), n < fuel →
    (natDecimalAux fuel n).foldl (fun a c => a * 10 + (c.toNat - 48)) acc
      = acc * 10 ^ (natDecimalAux fuel n).length + n := by
  intro fuel
  induction fuel with
  | zero => intro n acc h; omega
  | succ f ih =>
    intro n acc h
    rw [natDecimalAux]
    by_cases hn : n < 10
    · rw [if_pos hn]
      simp only [List.foldl_cons, List.foldl_nil, List.length_cons,
        List.length_nil, pow_one, zero_add, pow_succ, pow_zero, one_mul]
      rw [digitChar_toNat n hn]
      omega
    · rw [if_neg hn]
      rw [List.foldl_append, List.length_append]
      rw [ih (n / 10) acc (by omega)]
      simp only [List.foldl_cons, List.foldl_nil, List.length_cons,
        List.length_nil, zero_add, pow_succ]
      rw [digitChar_toNat _ (show n % 10 < 10 by omega)]
      rw [← mul_assoc]
      generalize acc * 10 ^ (natDecimalAux f (n / 10)).length = m
      omega

theorem digitChar_ne_zero : ∀ d, d < 10 → 0 < d → Char.ofNat (48 + d) ≠ '0' := by
  decide

theorem natDecimalAux_head_ne : ∀ (fuel n : Nat), 0 < n → n < fuel →
    ∀ c, (natDecimalAux fuel n).head? = some c → c ≠ '0' := by
  intro fuel
  induction fuel with
  | zero => intro n h1 h2; omega
  | succ f ih =>
    intro n h1 h2 c hc
    rw [natDecimalAux] at hc
    by_cases hn : n < 10
    · rw [if_pos hn] at hc
      simp only [List.head?_cons, Option.some.injEq] at hc
      subst hc
      exact digitChar_ne_zero n hn h1
    · rw [if_neg hn] at hc
      obtain ⟨d, cs, hd, hcs⟩ := natDecimalAux_cons f (by omega) (n / 10)
      rw [hcs] at hc
      simp only [List.cons_append, List.head?_cons, Option.some.injEq] at hc
      subst hc
      exact ih (n / 10) (by omega) (by omega) _ (by rw [hcs]; rfl)

theorem natDecimal_facts (m : Nat) :
    (∀ c ∈ natDecimal m, c.isDigit = true) ∧
    (natDecimal m).foldl (fun a c => a * 10 + (c.toNat - 48)) 0 = m ∧
    0 < (natDecimal m).length ∧
    (1 < (natDecimal m).length → ∀ c, (natDecimal m).head? = some c → c ≠ '0') := by
  refine ⟨fun c hc => natDecimalAux_isDigit _ _ c hc, ?_, ?_, ?_⟩
  · rw [natDecimal, natDecimalAux_foldl _ _ _ (by omega)]
    omega
  · obtain ⟨d, cs, -, hcs⟩ := natDecimalAux_cons (m + 1) (by omega) m
    rw [natDecimal, hcs]
    simp
  · intro hlen c hc
    rcases Nat.eq_zero_or_pos m with rfl | hm
    · rw [show natDecimal 0 = ['0'] from rfl] at hlen
      simp at hlen
    · exact natDecimalAux_head_ne _ _ hm (by omega) c hc

theorem digitChar_ne_dash : ∀ d, d < 10 → (Char.ofNat (48 + d) = '-') = False := by
  decide

end HashLib

namespace CursorLib

open HashLib

theorem digitsLoop_append : ∀ (ds : List Char) (rest : List Char) (acc n : Nat),
    (∀ c ∈ ds, c.isDigit = true) →
    (∀ c, rest.head? = some c → c.isDigit = false) →
    digitsLoop (ds ++ rest) acc n
      = (ds.foldl (fun a c => a * 10 + (c.toNat - 48)) acc, n + ds.length, rest) := by
  intro ds
  induction ds with
  | nil =>
    intro rest acc n _ hrest
    simp only [List.nil_append, List.foldl_nil, List.length_nil, Nat.add_zero]
    cases rest with
    | nil => rw [digitsLoop]
    | cons c rs =>
      rw [digitsLoop, if_neg]
      rw [hrest c rfl]
      exact Bool.false_ne_true
  | cons c ds ih =>
    intro rest acc n hds hrest
    simp only [List.cons_append]
    rw [digitsLoop, if_pos (hds c (by simp))]
    rw [ih rest _ _ (fun x hx => hds x (by simp [hx])) hrest]
    simp only [List.foldl_cons, List.length_cons, Prod.mk.injEq, true_and,
      and_true]
    omega

theorem parseJsonNumber_natDecimal (m : Nat) (tail : List Char) :
    parseJsonNumber (natDecimal m ++ (',' :: '"' :: tail))
      = some ((m : ℚ), ',' :: '"' :: tail) := by
  obtain ⟨hdig, hval, hlen, hhead⟩ := natDecimal_facts m
  obtain ⟨d, cs, hd, hshape⟩ := natDecimalAux_cons (m + 1) (by omega) m
  have hshape' : natDecimal m = Char.ofNat (48 + d) :: cs := hshape
  have hdash : ¬ ((Char.ofNat (48 + d) :: (cs ++ ',' :: '"' :: tail)).head?
      = some '-') := by
    simp only [List.head?_cons, Option.some.injEq]
    exact fun h => (digitChar_ne_dash d hd).mp h
  unfold parseJsonNumber
  rw [hshape', List.cons_append]
  dsimp only
  rw [if_neg hdash]
  rw [show (Char.ofNat (48 + d) :: (cs ++ ',' :: '"' :: tail))
      = natDecimal m ++ (',' :: '"' :: tail) from by rw [hshape']; rfl]
  rw [digitsLoop_append _ _ _ _ hdig (by
    intro c hc
    simp only [List.head?_cons, Option.some.injEq] at hc
    subst hc
    rfl)]
  dsimp only
  rw [hval]
  rw [if_neg (by omega : ¬ (0 + (natDecimal m).length = 0))]
  have hneg2 : (List.head? (natDecimal m ++ ',' :: '"' :: tail) = some '-')
      = False := by
    rw [hshape', List.cons_append, List.head?_cons]
    simp only [Option.some.injEq]
    exact eq_false fun h => (digitChar_ne_dash d hd).mp h
  simp [hneg2]
  refine ⟨fun h1 hc => hhead h1 '0' hc rfl, fun hcon => absurd hcon ?_⟩
  rw [hshape', List.head?_cons]
  simp only [Option.some.injEq]
  exact fun h => (digitChar_ne_dash d hd).mp h

theorem parseJsonNumber_natDecimal_neg (m : Nat) (tail : List Char) :
    parseJsonNumber ('-' :: (natDecimal m ++ (',' :: '"' :: tail)))
      = some ((-m : ℚ), ',' :: '"' :: tail) := by
  obtain ⟨hdig, hval, hlen, hhead⟩ := natDecimal_facts m
  obtain ⟨d, cs, hd, hshape⟩ := natDecimalAux_cons (m + 1) (by omega) m
  have hshape' : natDecimal m = Char.ofNat (48 + d) :: cs := hshape
  unfold parseJsonNumber
  dsimp only
  rw [if_pos (List.head?_cons ▸ rfl :
    (('-' :: (natDecimal m ++ (',' :: '"' :: tail))).head? = some '-'))]
  rw [List.tail_cons]
  rw [digitsLoop_append _ _ _ _ hdig (by
    intro c hc
    simp only [List.head?_cons, Option.some.injEq] at hc
    subst hc
    rfl)]
  dsimp only
  rw [hval]
  rw [if_neg (by omega : ¬ (0 + (natDecimal m).length = 0))]
  simp
  exact fun h1 hc => hhead h1 '0' hc rfl

theorem parseJsonNumber_intRepr (n : Int) (tail : List Char) :
    parseJsonNumber (intRepr n ++ (',' :: '"' :: tail))
      = some ((n : ℚ), ',' :: '"' :: tail) := by
  rw [intRepr]
  by_cases hn : n < 0
  · rw [if_pos hn, List.cons_append, parseJsonNumber_natDecimal_neg]
    have h1 : ((-n).toNat : Int) = -n := Int.toNat_of_nonneg (by omega)
    have h2 : (((-n).toNat : Int) : ℚ) = ((-n : Int) : ℚ) := by rw [h1]
    push_cast at h2
    rw [show (-((-n).toNat : ℚ)) = (n : ℚ) from by rw [h2]; ring]
  · rw [if_neg hn, parseJsonNumber_natDecimal]
    have h1 : (n.toNat : Int) = n := Int.toNat_of_nonneg (by omega)
    have h2 : ((n.toNat : Int) : ℚ) = (n : ℚ) := by rw [h1]
    push_cast at h2
    rw [h2]

theorem hexVal_hexDigit : ∀ k, k < 16 → hexVal (hexDigitChar k) = some k := by
  decide

theorem parseStringBody_jsonEscape : ∀ (s : List Char) (fuel : Nat)
    (rest : List Char), s.length < fuel →
    parseStringBody fuel (jsonEscape s ++ '"' :: rest) = some (s, rest) := by
  intro s
  induction s with
  | nil =>
    intro fuel rest hf
    cases fuel with
    | zero => omega
    | succ f =>
      rw [show jsonEscape [] ++ '"' :: rest = '"' :: rest from rfl]
      rw [parseStringBody.eq_def]
      dsimp only
      rw [if_pos rfl]
  | cons c s ih =>
    intro fuel rest hf
    cases fuel with
    | zero => omega
    | succ f =>
    have hs : s.length < f := by
      rw [List.length_cons] at hf
      omega
    have ihf := ih f rest hs
    rw [show jsonEscape (c :: s) = jsonEscapeChar c ++ jsonEscape s from rfl]
    by_cases h1 : c = '"'
    · subst h1
      rw [show jsonEscapeChar '"' = ['\\', '"'] from rfl]
      simp only [List.cons_append, List.nil_append, List.append_assoc]
      rw [parseStringBody.eq_def]
      dsimp only
      rw [if_neg (by decide)]
      simp only [reduceIte]
      rw [ihf]
      rfl
    by_cases h2 : c = '\\'
    · subst h2
      rw [show jsonEscapeChar '\\' = ['\\', '\\'] from rfl]
      simp only [List.cons_append, List.nil_append, List.append_assoc]
      rw [parseStringBody.eq_def]
      dsimp only
      rw [if_neg (by decide)]
      simp only [reduceIte]
      rw [ihf]
      rfl
    by_cases h3 : c = '\n'
    · subst h3
      rw [show jsonEscapeChar '\n' = ['\\', 'n'] from rfl]
      simp only [List.cons_append, List.nil_append, List.append_assoc]
      rw [parseStringBody.eq_def]
      dsimp only
      rw [if_neg (by decide)]
      simp only [reduceIte]
      rw [ihf]
      rfl
    by_cases h4 : Char.toNat c = 13
    · have hc : c = Char.ofNat 13 := by
        rw [← Char.ofNat_toNat c, h4]
      subst hc
      rw [show jsonEscapeChar (Char.ofNat 13) = ['\\', 'r'] from rfl]
      simp only [List.cons_append, List.nil_append, List.append_assoc]
      rw [parseStringBody.eq_def]
      dsimp only
      rw [if_neg (by decide)]
      simp only [reduceIte]
      rw [ihf]
      rfl
    by_cases h5 : c = '\t'
    · subst h5
      rw [show jsonEscapeChar '\t' = ['\\', 't'] from rfl]
      simp only [List.cons_append, List.nil_append, List.append_assoc]
      rw [parseStringBody.eq_def]
      dsimp only
      rw [if_neg (by decide)]
      simp only [reduceIte]
      rw [ihf]
      rfl
    by_cases h6 : Char.toNat c = 8
    · have hc : c = Char.ofNat 8 := by
        rw [← Char.ofNat_toNat c, h6]
      subst hc
      rw [show jsonEscapeChar (Char.ofNat 8) = ['\\', 'b'] from rfl]
      simp only [List.cons_append, List.nil_append, List.append_assoc]
      rw [parseStringBody.eq_def]
      dsimp only
      rw [if_neg (by decide)]
      simp only [reduceIte]
      rw [ihf]
      rfl
    by_cases h7 : Char.toNat c = 12
    · have hc : c = Char.ofNat 12 := by
        rw [← Char.ofNat_toNat c, h7]
      subst hc
      rw [show jsonEscapeChar (Char.ofNat 12) = ['\\', 'f'] from rfl]
      simp only [List.cons_append, List.nil_append, List.append_assoc]
      rw [parseStringBody.eq_def]
      dsimp only
      rw [if_neg (by decide)]
      simp only [reduceIte]
      rw [ihf]
      rfl
    by_cases h8 : c.toNat < 0x20
    · rw [show jsonEscapeChar c = ['\\', 'u', '0', '0',
          hexDigitChar (c.toNat / 16), hexDigitChar (c.toNat % 16)] from by
        rw [jsonEscapeChar, if_neg h1, if_neg h2, if_neg h3, if_neg h4,
          if_neg h5, if_neg h6, if_neg h7, if_pos h8]]
      simp only [List.cons_append, List.nil_append, List.append_assoc]
      rw [parseStringBody.eq_def]
      dsimp only
      rw [if_neg (by decide)]
      simp only [reduceIte]
      rw [parseHex4]
      rw [hexVal_hexDigit _ (by omega), hexVal_hexDigit _ (by omega)]
      rw [show hexVal '0' = some 0 from rfl]
      dsimp only
      rw [show 0 * 4096 + 0 * 256 + c.toNat / 16 * 16 + c.toNat % 16
        = c.toNat from by omega]
      rw [if_neg (show ¬ ((0xD800 ≤ c.toNat && c.toNat < 0xDC00) = true) from by
        simp only [Bool.and_eq_true, decide_eq_true_eq]
        omega)]
      rw [if_neg (show ¬ ((0xDC00 ≤ c.toNat && c.toNat < 0xE000) = true) from by
        simp only [Bool.and_eq_true, decide_eq_true_eq]
        omega)]
      rw [ihf, Char.ofNat_toNat]
      rfl
    · rw [show jsonEscapeChar c = [c] from by
        rw [jsonEscapeChar, if_neg h1, if_neg h2, if_neg h3, if_neg h4,
          if_neg h5, if_neg h6, if_neg h7, if_neg h8]]
      simp only [List.cons_append, List.nil_append, List.append_assoc]
      rw [parseStringBody.eq_def]
      dsimp only
      rw [if_neg h1, if_neg h2, if_neg h8]
      rw [ihf]
      rfl

theorem jsonEscapeChar_length (c : Char) : 1 ≤ (jsonEscapeChar c).length := by
  rw [jsonEscapeChar]
  repeat' split
  all_goals simp

theorem length_le_jsonEscape (s : List Char) : s.length ≤ (jsonEscape s).length := by
  induction s with
  | nil => simp [jsonEscape]
  | cons c s ih =>
    rw [show jsonEscape (c :: s) = jsonEscapeChar c ++ jsonEscape s from rfl]
    rw [List.length_append, List.length_cons]
    have := jsonEscapeChar_length c
    omega

theorem skipWs_cons (c : Char) (l : List Char) (h : isJsonWs c = false) :
    skipWs (c :: l) = c :: l := by
  simp [skipWs, List.dropWhile_cons, h]

theorem skipWs_quote (l : List Char) : skipWs ('"' :: l) = '"' :: l := rfl

theorem skipWs_colon (l : List Char) : skipWs (':' :: l) = ':' :: l := rfl

theorem skipWs_comma (l : List Char) : skipWs (',' :: l) = ',' :: l := rfl

theorem skipWs_rbrace (l : List Char) :
    skipWs (Char.ofNat 125 :: l) = Char.ofNat 125 :: l := rfl

theorem digitChar_head_facts : ∀ d, d < 10 →
    isJsonWs (Char.ofNat (48 + d)) = false ∧
    Char.ofNat (48 + d) ≠ 'n' ∧ Char.ofNat (48 + d) ≠ 't' ∧
    Char.ofNat (48 + d) ≠ 'f' ∧ Char.ofNat (48 + d) ≠ '"' ∧
    Char.ofNat (48 + d) ≠ '[' ∧ Char.ofNat (48 + d) ≠ Char.ofNat 123 ∧
    ((Char.ofNat (48 + d) = '-' || (Char.ofNat (48 + d)).isDigit) = true) := by
  decide

theorem intRepr_head (n : Int) : ∃ c cs, intRepr n = c :: cs ∧
    isJsonWs c = false ∧ c ≠ 'n' ∧ c ≠ 't' ∧ c ≠ 'f' ∧ c ≠ '"' ∧ c ≠ '[' ∧
    c ≠ Char.ofNat 123 ∧ ((c = '-' || c.isDigit) = true) := by
  rw [intRepr]
  by_cases hn : n < 0
  · rw [if_pos hn]
    exact ⟨'-', _, rfl, by decide, by decide, by decide, by decide, by decide,
      by decide, by decide, by decide⟩
  · rw [if_neg hn]
    obtain ⟨d, cs, hd, hshape⟩ := natDecimalAux_cons (n.toNat + 1) (by omega) n.toNat
    obtain ⟨f1, f2, f3, f4, f5, f6, f7, f8⟩ := digitChar_head_facts d hd
    exact ⟨_, cs, hshape, f1, f2, f3, f4, f5, f6, f7, f8⟩

theorem parseStringBody_plain (key : List Char) (hkey : jsonEscape key = key)
    (fuel : Nat) (rest : List Char) (h : key.length < fuel) :
    parseStringBody fuel (key ++ '"' :: rest) = some (key, rest) := by
  conv_lhs => rw [← hkey]
  exact parseStringBody_jsonEscape key fuel rest h

theorem key_lt (key Z : List Char) : key.length < (key ++ '"' :: Z).length + 1 := by
  rw [List.length_append, List.length_cons]
  omega

theorem esc_lt (s Z : List Char) :
    s.length < (jsonEscape s ++ '"' :: Z).length + 1 := by
  have := length_le_jsonEscape s
  rw [List.length_append, List.length_cons]
  omega

theorem parseValue_cursorJson (k : Nat) (score : Int) (lastISO id : List Char) :
    parseJsonValue (k + 8) (cursorJsonChars score lastISO id) =
      some (Json.obj [("importanceScore".toList, Json.num (score : ℚ)),
        ("lastSignalAt".toList, Json.str lastISO),
        ("id".toList, Json.str id)], []) := by
  obtain ⟨c, cs, hcons, hws, hn', ht', hf', hq', hbr', hbrace', hnum⟩ :=
    intRepr_head score
  rw [cursorJsonChars]
  rw [show k + 8 = (k + 7) + 1 from rfl]
  rw [parseJsonValue]
  rw [show skipWs (Char.ofNat 123 :: '"' :: ("importanceScore".toList ++ '"' ::
      ':' :: (intRepr score ++ ',' :: '"' :: ("lastSignalAt".toList ++ '"' ::
      ':' :: '"' :: (jsonEscape lastISO ++ '"' :: ',' :: '"' :: ("id".toList ++
      '"' :: ':' :: '"' :: (jsonEscape id ++ '"' :: Char.ofNat 125 :: [])))))))
    = Char.ofNat 123 :: '"' :: ("importanceScore".toList ++ '"' ::
      ':' :: (intRepr score ++ ',' :: '"' :: ("lastSignalAt".toList ++ '"' ::
      ':' :: '"' :: (jsonEscape lastISO ++ '"' :: ',' :: '"' :: ("id".toList ++
      '"' :: ':' :: '"' :: (jsonEscape id ++ '"' :: Char.ofNat 125 :: []))))))
    from rfl]
  dsimp only
  rw [if_neg (by decide), if_neg (by decide), if_neg (by decide),
    if_neg (by decide), if_neg (by decide), if_pos rfl]
  rw [skipWs_quote]
  rw [show k + 7 = (k + 6) + 1 from rfl]
  rw [parseObjMembers]
  rw [if_neg (by decide)]
  rw [show k + 6 = (k + 5) + 1 from rfl]
  rw [parseObjMember]
  rw [if_pos rfl]
  rw [parseStringBody_plain _ (by decide) _ _ (key_lt _ _)]
  dsimp only
  rw [skipWs_colon]
  dsimp only
  rw [if_pos rfl]
  rw [show k + 5 = (k + 4) + 1 from rfl]
  rw [parseJsonValue]
  rw [hcons, List.cons_append, skipWs_cons _ _ hws]
  dsimp only
  rw [if_neg hn', if_neg ht', if_neg hf', if_neg hq', if_neg hbr',
    if_neg hbrace', if_pos hnum]
  rw [← List.cons_append, ← hcons, parseJsonNumber_intRepr]
  dsimp only [Option.map]
  rw [skipWs_comma]
  dsimp only
  rw [if_pos rfl]
  rw [skipWs_quote]
  rw [show k + 4 + 1 = (k + 4) + 1 from rfl]
  rw [parseObjMembers.eq_def]
  dsimp only
  rw [show k + 4 = (k + 3) + 1 from rfl]
  rw [parseObjMember]
  rw [if_pos rfl]
  rw [parseStringBody_plain _ (by decide) _ _ (key_lt _ _)]
  dsimp only
  rw [skipWs_colon]
  dsimp only
  rw [if_pos rfl]
  rw [show k + 3 = (k + 2) + 1 from rfl]
  rw [parseJsonValue]
  rw [skipWs_quote]
  dsimp only
  rw [if_neg (by decide), if_neg (by decide), if_neg (by decide), if_pos rfl]
  rw [parseStringBody_jsonEscape _ _ _ (esc_lt _ _)]
  dsimp only [Option.map]
  rw [skipWs_comma]
  dsimp only
  rw [if_pos rfl]
  rw [skipWs_quote]
  rw [show k + 2 + 1 = (k + 2) + 1 from rfl]
  rw [parseObjMembers.eq_def]
  dsimp only
  rw [show k + 2 = (k + 1) + 1 from rfl]
  rw [parseObjMember]
  rw [if_pos rfl]
  rw [parseStringBody_plain _ (by decide) _ _ (key_lt _ _)]
  dsimp only
  rw [skipWs_colon]
  dsimp only
  rw [if_pos rfl]
  rw [show k + 1 = k + 0 + 1 from rfl]
  rw [parseJsonValue]
  rw [skipWs_quote]
  dsimp only
  rw [if_neg (by decide), if_neg (by decide), if_neg (by decide), if_pos rfl]
  rw [parseStringBody_jsonEscape _ _ _ (esc_lt _ _)]
  dsimp only [Option.map]
  rw [skipWs_rbrace]
  dsimp only
  rw [if_neg (by decide), if_pos rfl]
  rfl

theorem jsonParseTop_cursorJson (score : Int) (lastISO id : List Char) :
    jsonParseTop (cursorJsonChars score lastISO id) =
      some (Json.obj [("importanceScore".toList, Json.num (score : ℚ)),
        ("lastSignalAt".toList, Json.str lastISO),
        ("id".toList, Json.str id)]) := by
  rw [jsonParseTop]
  rw [show (cursorJsonChars score lastISO id).length + 1
      = ((cursorJsonChars score lastISO id).length - 7) + 8 from by
    rw [cursorJsonChars]
    simp only [List.length_cons, List.length_append]
    omega]
  rw [parseValue_cursorJson]
  rfl

end CursorLib

/-- **C9.** For every cursor value — integer `importanceScore`, ISO-8601 string
`lastSignalAt` (as already rendered by `toISOString()`), string `id` — decoding
the URL-safe base64 encoding produced by `encodeCursor` returns the same
cursor: `JSON.parse` recovers the object whose three properties are exactly
the encoded score (as a number), timestamp string and id string. -/
theorem C9_cursor_roundtrip (score : Int) (lastISO id : List Char) :
    CursorLib.decodeCursor (CursorLib.encodeCursor score lastISO id)
      = some (CursorLib.rawCursorOf score lastISO id) := by
  rw [CursorLib.decodeCursor, CursorLib.encodeCursor]
  rw [CursorLib.b64_roundtrip _ (CursorLib.utf8Encode_lt_256 _)]
  rw [CursorLib.utf8_roundtrip]
  rw [CursorLib.jsonParseTop_cursorJson]
  rfl

/-- C10 counterexample: `"NQ"` is not a well-formed base64url-encoded JSON
cursor (it decodes to the JSON number `5`), yet `decodeCursor` does not return
null for it — it returns a cursor object whose three properties are all
`undefined`, which is then handed to the Prisma `where` builder. `decodeCursor`
returns null only when the decoded bytes fail `JSON.parse`. -/
theorem C10_nonobject_cursor_decodes_nonnull :
    CursorLib.decodeCursor "NQ".toList
      = some { importanceScore := none, lastSignalAt := none, id := none } := by
  rfl

/-- **C10 (amended).** For every cursor string whose decode actually fails
(`JSON.parse` throws, so `decodeCursor` returns null), `GET /clusters` applies
no keyset predicate and returns exactly the same first page as a request with
no cursor parameter, rather than an error response. (For strings that decode
to valid non-cursor JSON, such as `"NQ"`, the decoded object is not null and
its undefined fields are passed through to the query builder instead.) -/
theorem C10_undecodable_cursor_same_first_page
    (handleRaw : CursorLib.RawCursor → Except Unit (FeedLib.ClusterRow → Bool))
    (snapshot : List FeedLib.ClusterRow) (limit : Nat) (s : List Char)
    (h : CursorLib.decodeCursor s = none) :
    CursorLib.routeFirstPage handleRaw snapshot limit (some s)
      = CursorLib.routeFirstPage handleRaw snapshot limit none := by
  rw [CursorLib.routeFirstPage, CursorLib.routeFirstPage]
  rw [h]

/-- C10 witness: the string `"!!!"` contains no base64 alphabet characters, so
its lenient decode is empty, `JSON.parse("")` fails, `decodeCursor` returns
null, and the route serves the ordinary first page. -/
theorem C10_undecodable_cursor_same_first_page_witness :
    CursorLib.decodeCursor "!!!".toList = none ∧
    CursorLib.routeFirstPage (fun _ => Except.error ()) [] 20 (some "!!!".toList)
      = CursorLib.routeFirstPage (fun _ => Except.error ()) [] 20 none :=
  ⟨by rfl, C10_undecodable_cursor_same_first_page _ _ _ _ (by rfl)⟩
